import Mathlib

/-!
Verification development for the canvas-quiz-gpt question-extraction and
answer-application layer.

The TypeScript sources are shallowly embedded:
* pure string helpers (`normalizeNeedle`, `normalizeComparableText`,
  `deriveChoiceLetter`, `normalizeAnswerParts`, ...) from
  `src/content/applyAnswer.ts` become Lean functions on `String`;
* a question (`ParsedQuestion`) and its choices mirror the types in
  `src/content/platforms/types.ts`;
* mutable DOM widget state becomes an explicit `Dom` record (checked flags,
  values, the option list of each `<select>`), and event dispatch becomes an
  explicit event log; `applyAnswer` is state passing over that record;
* the Canvas adapter's `parseQuestion` from
  `src/content/platforms/canvas/index.ts` is embedded over an abstract
  container (`QElement`) whose fields are the results of the DOM queries the
  code performs (`querySelectorAll('input[type=radio]')`, attribute reads,
  the label-resolution chain), so that parsing stays a pure function of the
  observed container;
* the platform registry from `src/content/platforms/registry.ts` is embedded
  with URL patterns as boolean predicates on the address string.

JavaScript peculiarities are kept: falsy checks on strings are `= ""` tests,
`??` chains are `Option.orElse` chains, `||` chains on strings take the first
nonempty string, and a JS `Set` of choice objects is represented by the list
of (index, choice) pairs because object identity of a choice coincides with
its index in `question.choices`. JS string primitives (`trim`, `split`,
`includes`, `toLowerCase`) are implemented on character lists so that every
definition evaluates inside the kernel.
-/

/-! ## JS string primitives on character lists -/

/-- Model of the JS `String.prototype.trim`. -/
def jsTrim (s : String) : String :=
  String.mk
    (((s.data.dropWhile Char.isWhitespace).reverse.dropWhile
      Char.isWhitespace).reverse)

/-- Model of the JS `String.prototype.toLowerCase` (ASCII range). -/
def jsToLower (s : String) : String :=
  String.mk (s.data.map Char.toLower)

/-- Model of the JS `str.includes(ch)` / `indexOf` test for one character. -/
def containsChar (s : String) (c : Char) : Bool :=
  s.data.contains c

/-- Split a character list at every occurrence of a separator character. -/
def splitOnCharAux (sep : Char) : List Char → List (List Char)
  | [] => [[]]
  | c :: rest =>
    if c = sep then [] :: splitOnCharAux sep rest
    else
      match splitOnCharAux sep rest with
      | [] => [[c]]
      | group :: groups => (c :: group) :: groups

/-- Model of the JS `str.split(sep)` for a one-character separator. -/
def jsSplit (s : String) (sep : Char) : List String :=
  (splitOnCharAux sep s.data).map String.mk

/-- Decidable check that a character list starts with another list. -/
def charsStartWith : List Char → List Char → Bool
  | [], _ => true
  | _ :: _, [] => false
  | a :: as, b :: bs => a = b && charsStartWith as bs

/-- Decidable check that `needle` occurs inside `hay` as a contiguous block. -/
def charsContain (needle : List Char) : List Char → Bool
  | [] => charsStartWith needle []
  | c :: rest => charsStartWith needle (c :: rest) || charsContain needle rest

/-- Model of the JS `hay.includes(needle)` substring test. -/
def strContains (hay needle : String) : Bool :=
  charsContain needle.data hay.data

/-- Model of the JS `str.replaceAll("::", "--")` left-to-right scan used by
the Canvas adapter to keep `::` out of natural select ids. -/
def replaceDoubleColon : List Char → List Char
  | [] => []
  | [c] => [c]
  | c1 :: c2 :: rest =>
    if c1 = ':' && c2 = ':' then '-' :: '-' :: replaceDoubleColon rest
    else c1 :: replaceDoubleColon (c2 :: rest)

/-! ## String helpers shared by the adapter and the resolver -/

/-- One step of the JS regex replace of whitespace runs by a single space:
the Boolean argument records whether the previous character was whitespace. -/
def collapseWsAux : Bool → List Char → List Char
  | _, [] => []
  | prevWs, c :: rest =>
    if c.isWhitespace then
      if prevWs then collapseWsAux true rest
      else ' ' :: collapseWsAux true rest
    else c :: collapseWsAux false rest

/-- Model of `raw.replace(/\s+/g, " ")`. -/
def collapseWs (s : String) : String :=
  String.mk (collapseWsAux false s.data)

/-- Model of `sanitizeLabel` from the Canvas adapter: collapse whitespace and
trim; `null`/`undefined` input is the `none` case. -/
def sanitizeLabel (raw : Option String) : String :=
  match raw with
  | none => ""
  | some s => jsTrim (collapseWs s)

/-- Characters stripped from the front by `normalizeNeedle`
(the regex pattern of leading brackets, hashes, whitespace). -/
def needleLead (c : Char) : Bool :=
  c = '[' || c = '(' || c = '#' || c.isWhitespace

/-- Characters stripped from the back by `normalizeNeedle`
(the regex pattern of trailing brackets and whitespace). -/
def needleTrail (c : Char) : Bool :=
  c = ']' || c = ')' || c.isWhitespace

/-- Model of `normalizeNeedle` from `applyAnswer.ts`: strip bracket/hash
decoration, trim, lowercase; empty results are absent (`undefined`). -/
def normalizeNeedle (raw : String) : Option String :=
  if raw = "" then none
  else
    let step1 := String.mk (raw.data.dropWhile needleLead)
    let step2 := String.mk ((step1.data.reverse.dropWhile needleTrail).reverse)
    let cleaned := jsToLower (jsTrim step2)
    if cleaned = "" then none else some cleaned

/-- Model of `normalizeComparableText` from `applyAnswer.ts`: unicode minus to
hyphen, collapse whitespace, trim, lowercase, then drop every character that
is not a lowercase letter or digit. -/
def normalizeComparableText (raw : String) : String :=
  if raw = "" then ""
  else
    let s1 := String.mk
      (raw.data.map fun c => if c = Char.ofNat 0x2212 then '-' else c)
    let s2 := jsToLower (jsTrim (collapseWs s1))
    String.mk (s2.data.filter fun c =>
      ('a' ≤ c && c ≤ 'z') || ('0' ≤ c && c ≤ '9'))

/-- The loop body of `deriveChoiceLetter`: the TS `while (current >= 0)` loop
prefixes one base-26 digit per round and continues with
`floor(current / 26) - 1`, which is negative exactly when `current < 26`. -/
def deriveChoiceLetterGo (current : Nat) : String :=
  if current < 26 then
    String.singleton (Char.ofNat (65 + current % 26))
  else
    deriveChoiceLetterGo (current / 26 - 1) ++
      String.singleton (Char.ofNat (65 + current % 26))
termination_by current
decreasing_by
  have h1 : 0 < current := by omega
  have hdiv : current / 26 < current := Nat.div_lt_self h1 (by omega)
  omega

/-- Fuel-indexed twin of `deriveChoiceLetterGo`, used as the executable
definition: the kernel does not unfold well-founded recursion, and every
loop round strictly decreases `current`, so `index + 1` rounds always
suffice (`deriveChoiceLetter_eq_go` below proves the agreement). -/
def letterFuel : Nat → Nat → String
  | 0, _ => ""
  | fuel + 1, current =>
    if current < 26 then String.singleton (Char.ofNat (65 + current % 26))
    else
      letterFuel fuel (current / 26 - 1) ++
        String.singleton (Char.ofNat (65 + current % 26))

/-- Model of `deriveChoiceLetter` from `applyAnswer.ts`. The TS function
returns `undefined` for negative indices, which a `Nat` index cannot express,
and its final `result`-nonempty fallback never fires because the loop always
emits at least one character. -/
def deriveChoiceLetter (index : Nat) : String :=
  letterFuel (index + 1) index

/-- The `answerText` parameter of the resolver, `string | string[]` in TS;
`undefined` is the `none` case of the surrounding `Option`. -/
inductive AnswerText where
  | str (s : String)
  | arr (xs : List String)
deriving DecidableEq

/-- Model of `normalizeAnswerParts` from `applyAnswer.ts`: arrays are trimmed
element-wise with empties dropped; a string is split on newlines when it has
one, else on commas when it has one, else kept whole. -/
def normalizeAnswerParts (answerText : Option AnswerText) : List String :=
  match answerText with
  | some (.arr xs) => (xs.map jsTrim).filter (fun p => p ≠ "")
  | some (.str s) =>
    let trimmed := jsTrim s
    if trimmed = "" then []
    else if containsChar trimmed '\n' then
      ((jsSplit trimmed '\n').map jsTrim).filter (fun p => p ≠ "")
    else if containsChar trimmed ',' then
      ((jsSplit trimmed ',').map jsTrim).filter (fun p => p ≠ "")
    else [trimmed]
  | none => []


/-! ## Data model

`ParsedChoice`/`ParsedQuestion` mirror `src/content/platforms/types.ts`.
A choice references its DOM widget through a numeric `elementId`; several
select choices may share one widget, exactly as in the source. The question
also keeps its container (`QElement`), from which `parseQuestion` reads and
which `getSelectsInDomOrder` queries again during answer application. -/

/-- Kinds of choices (`ChoiceKind` in `types.ts`). -/
inductive ChoiceKind where
  | single
  | multi
  | text
  | select
deriving DecidableEq

/-- Question types: a choice kind or `unknown`. -/
inductive QType where
  | single
  | multi
  | text
  | select
  | unknown
deriving DecidableEq

/-- The DOM interface class of a widget, for the `instanceof` tests in
`applyAnswer.ts` (`HTMLInputElement`, `HTMLTextAreaElement`,
`HTMLSelectElement`). -/
inductive ElemType where
  | inputEl
  | textareaEl
  | selectEl
  | otherEl
deriving DecidableEq

/-- One `<option>` of a `<select>`: its `value` attribute and text. -/
structure OptionEl where
  value : String
  textContent : String
deriving DecidableEq

/-- The results of the label-resolution chain of `deriveChoiceLabel` for one
input widget, in the source's priority order: `data-label` attribute,
`aria-label` attribute, `aria-labelledby` referenced text, `label[for]` text,
closest enclosing `<label>` text, nearby answer-container text. `some ""` is
a present-but-empty attribute, which the TS `??` chain accepts. -/
structure LabelSources where
  dataLabel : Option String
  ariaLabel : Option String
  ariaLabelledByText : Option String
  labelForText : Option String
  closestLabelText : Option String
  nearbyAnswerText : Option String
deriving DecidableEq

/-- An `<input>` or `<textarea>` widget as the Canvas adapter observes it. -/
structure InputEl where
  elemId : Nat
  id : String
  value : String
  placeholder : Option String
  labels : LabelSources
deriving DecidableEq

/-- A `<select>` widget as the Canvas adapter observes it. -/
structure SelectEl where
  elemId : Nat
  id : String
  name : String
  dataSelectId : Option String
  ariaLabel : Option String
  title : Option String
  options : List OptionEl
deriving DecidableEq

/-- A question container, abstracted to the DOM queries `parseQuestion`
performs on it: the widget lists returned by the `querySelectorAll` calls (in
document order), the attributes consulted by `deriveQuestionId`, the text of
the resolved question-text element (plain, and with selects replaced by
positional placeholders as `extractTextWithSelectPlaceholders` computes it),
and the serialized markup. -/
structure QElement where
  dataQuestionId : Option String
  idAttr : Option String
  datasetId : Option String
  questionNumberText : Option String
  dataQuestionNumber : Option String
  questionText : String
  questionTextPlaceholders : String
  innerHTML : String
  radioInputs : List InputEl
  checkboxInputs : List InputEl
  textInputs : List InputEl
  textAreas : List InputEl
  selectInputs : List SelectEl
deriving DecidableEq

/-- A parsed choice (`ParsedChoice` in `types.ts`). -/
structure ParsedChoice where
  id : String
  label : String
  elementId : Nat
  kind : ChoiceKind
  value : Option String
deriving DecidableEq

/-- A parsed question (`ParsedQuestion` in `types.ts`). -/
structure ParsedQuestion where
  id : String
  element : QElement
  qtype : QType
  text : String
  html : String
  number : Option Int
  choices : List ParsedChoice
deriving DecidableEq

/-! ## DOM widget state and synthetic events -/

/-- The mutable state of the page widgets, indexed by `elementId`: the
interface class of each widget, its checked flag, its current value, and (for
selects) its option list. `elemType` and `options` are never mutated. -/
structure Dom where
  elemType : Nat → ElemType
  checked : Nat → Bool
  value : Nat → String
  options : Nat → List OptionEl

/-- Set the `checked` property of one widget. -/
def Dom.setChecked (d : Dom) (w : Nat) (b : Bool) : Dom :=
  { d with checked := fun n => if n = w then b else d.checked n }

/-- Set the `value` property of an input or textarea widget. -/
def Dom.setValue (d : Dom) (w : Nat) (v : String) : Dom :=
  { d with value := fun n => if n = w then v else d.value n }

/-- The option values of a select widget. -/
def Dom.optionValues (d : Dom) (w : Nat) : List String :=
  (d.options w).map OptionEl.value

/-- Assigning `select.value`: the DOM selects the option with that value, or
clears the selection (value reads back as `""`) when no option matches. -/
def Dom.setSelectValue (d : Dom) (w : Nat) (v : String) : Dom :=
  d.setValue w (if (d.optionValues w).contains v then v else "")

/-- The two synthetic event names fired by `triggerInputEvent`. -/
inductive EvName where
  | input
  | change
deriving DecidableEq

/-- The log of synthetic events: widget id and event name, in dispatch
order. `triggerInputEvent` appends one `input` and one `change` entry. -/
abbrev EventLog := List (Nat × EvName)

/-- The entries appended by one `triggerInputEvent(element)` call. -/
def triggerInputEvent (w : Nat) : EventLog :=
  [(w, EvName.input), (w, EvName.change)]

/-- Result of `applyAnswer` (`ApplyResult` in the source). -/
inductive ApplyResult where
  | ok
  | err (msg : String)
deriving DecidableEq

/-- Result, final widget state and fired events of one application. -/
structure ApplyOut where
  result : ApplyResult
  dom : Dom
  log : EventLog

/-! ## Answer resolution (`applyAnswer.ts`)

The TS resolvers return arrays of choice objects drawn from
`question.choices`; object identity of such a choice is its index, so the
embeddings return lists of (index, choice) pairs. -/

/-- Model of `resolveChoicesByIds`: a choice matches when one of its
normalized candidates (id, value, derived letter, 1-based position) equals a
normalized claimed identifier. -/
def resolveChoicesByIds (q : ParsedQuestion) (answerChoiceIds : List String) :
    List (Nat × ParsedChoice) :=
  if answerChoiceIds.isEmpty then []
  else
    let needles := answerChoiceIds.filterMap normalizeNeedle
    if needles.isEmpty then []
    else
      q.choices.enum.filter fun p =>
        let candidates :=
          [normalizeNeedle p.2.id,
           normalizeNeedle (p.2.value.getD ""),
           normalizeNeedle (deriveChoiceLetter p.1),
           normalizeNeedle (toString (p.1 + 1))].filterMap id
        candidates.any fun candidate => needles.contains candidate

/-- Model of `resolveChoicesByText`. For each choice (with nonempty
normalized label) the first loop pushes it once when some normalized part
matches the label exactly or by containment either way, and the second loop
pushes it once more when some raw part's needle equals the choice's derived
letter or 1-based position, exactly as the two `for`/`break` loops do. -/
def resolveChoicesByText (q : ParsedQuestion) (answerText : Option AnswerText) :
    List (Nat × ParsedChoice) :=
  let parts := normalizeAnswerParts answerText
  if parts.isEmpty then []
  else
    let normalizedParts := (parts.map normalizeComparableText).filter (fun p => p ≠ "")
    if normalizedParts.isEmpty then []
    else
      q.choices.enum.flatMap fun p =>
        let label := normalizeComparableText p.2.label
        if label = "" then []
        else
          (if normalizedParts.any fun part =>
              label = part || strContains label part || strContains part label
           then [p] else []) ++
          (if parts.any fun part =>
              match normalizeNeedle part with
              | none => false
              | some needle =>
                normalizeNeedle (deriveChoiceLetter p.1) = some needle ||
                  normalizeNeedle (toString (p.1 + 1)) = some needle
           then [p] else [])

/-- Model of `resolveSingleChoice`: first identifier match, else free-form
text match, else the claimed identifiers matched as label text. -/
def resolveSingleChoice (q : ParsedQuestion) (answerChoiceIds : List String)
    (answerText : Option AnswerText) : Option (Nat × ParsedChoice) :=
  match resolveChoicesByIds q answerChoiceIds with
  | p :: _ => some p
  | [] =>
    match resolveChoicesByText q answerText with
    | p :: _ => some p
    | [] =>
      match resolveChoicesByText q (some (.arr answerChoiceIds)) with
      | p :: _ => some p
      | [] => none

/-- Model of `resolveMultiChoices`: the JS `Set` unions the matches of the
three strategies; emptiness and membership are all the caller reads, so the
set is represented by the concatenation. -/
def resolveMultiChoices (q : ParsedQuestion) (answerChoiceIds : List String)
    (answerText : Option AnswerText) : List (Nat × ParsedChoice) :=
  resolveChoicesByIds q answerChoiceIds ++
    resolveChoicesByText q answerText ++
    resolveChoicesByText q (some (.arr answerChoiceIds))

/-- The `for (const choice of question.choices)` loop of the `multi` branch:
skip non-input widgets, set `checked` to union membership, fire events only
on actual change. The source's `appliedAny` flag selects between two
identical success returns and is omitted. -/
def applyMultiLoop (resolved : List (Nat × ParsedChoice)) (dom : Dom)
    (log : EventLog) : List (Nat × ParsedChoice) → Dom × EventLog
  | [] => (dom, log)
  | p :: rest =>
    if dom.elemType p.2.elementId ≠ ElemType.inputEl then
      applyMultiLoop resolved dom log rest
    else
      let shouldSelect := resolved.any fun r => r.1 = p.1
      if dom.checked p.2.elementId = shouldSelect then
        applyMultiLoop resolved dom log rest
      else
        applyMultiLoop resolved (dom.setChecked p.2.elementId shouldSelect)
          (log ++ triggerInputEvent p.2.elementId) rest

/-- The value written by the `text` branch: a string verbatim, an array
joined by newlines, or `""` when absent. -/
def textAnswerValue (answerText : Option AnswerText) : String :=
  match answerText with
  | some (.str s) => s
  | some (.arr xs) => String.intercalate "\n" xs
  | none => ""

/-- Model of `getUniqueSelectElements`: the distinct select widgets
referenced by the given choices, in first-occurrence order. -/
def getUniqueSelectElements (dom : Dom) (choices : List ParsedChoice) :
    List Nat :=
  choices.foldl
    (fun unique c =>
      if dom.elemType c.elementId = ElemType.selectEl &&
          !(unique.contains c.elementId) then
        unique ++ [c.elementId]
      else unique)
    []

/-- JS `Map.get` over an association list with unique keys. -/
def assocGet (m : List (Nat × String)) (k : Nat) : Option String :=
  (m.find? fun p => p.1 = k).map fun p => p.2

/-- JS `Map.set`: replace in place when the key exists, else append. -/
def assocSet (m : List (Nat × String)) (k : Nat) (v : String) :
    List (Nat × String) :=
  if (m.find? fun p => p.1 = k).isSome then
    m.map fun p => if p.1 = k then (k, v) else p
  else m ++ [(k, v)]

/-- The `new Map(selectChoices.map((choice) => [choice.id, choice]))` lookup:
with duplicate ids the Map constructor keeps the last entry. -/
def selectChoiceById (selectChoices : List ParsedChoice) (key : String) :
    Option ParsedChoice :=
  selectChoices.reverse.find? fun c => c.id = key

/-- The `requested.forEach` loop building `chosenBySelect`: skip non-select
widgets, first requested choice per widget wins. -/
def chosenBySelectLoop (dom : Dom) (acc : List (Nat × String)) :
    List ParsedChoice → List (Nat × String)
  | [] => acc
  | c :: rest =>
    if dom.elemType c.elementId ≠ ElemType.selectEl then
      chosenBySelectLoop dom acc rest
    else if (assocGet acc c.elementId).isSome then
      chosenBySelectLoop dom acc rest
    else chosenBySelectLoop dom (acc ++ [(c.elementId, c.value.getD "")]) rest

/-- Model of `getSelectsInDomOrder`: the container's selects in document
order filtered to the unique set, falling back to the unique set itself when
that intersection is empty. -/
def getSelectsInDomOrder (q : ParsedQuestion) (selects : List Nat) :
    List Nat :=
  let ordered := (q.element.selectInputs.map SelectEl.elemId).filter
    fun w => selects.contains w
  if ordered.isEmpty then selects else ordered

/-- Model of `matchSelectOption`: exact value match first, then exact
case-insensitive label match, then label containment. -/
def matchSelectOption (dom : Dom) (sel : Nat) (requested : String) :
    Option String :=
  let needle := jsToLower (jsTrim requested)
  if needle = "" then none
  else
    match (dom.options sel).find? fun o => jsTrim o.value = jsTrim requested with
    | some o => some o.value
    | none =>
      match (dom.options sel).find? fun o =>
          let label := jsToLower (jsTrim (collapseWs o.textContent))
          label ≠ "" && label = needle with
      | some o => some o.value
      | none =>
        match (dom.options sel).find? fun o =>
            let label := jsToLower (jsTrim (collapseWs o.textContent))
            label ≠ "" && strContains label needle with
        | some o => some o.value
        | none => none

/-- The `orderedSelects.forEach((select, index) => ...)` loop distributing
free-form parts over dropdowns in document order. -/
def textMappingLoop (dom : Dom) (parts : List String)
    (acc : List (Nat × String)) : List (Nat × Nat) → List (Nat × String)
  | [] => acc
  | (index, sel) :: rest =>
    match parts.get? index with
    | none => textMappingLoop dom parts acc rest
    | some part =>
      if part = "" then textMappingLoop dom parts acc rest
      else
        match matchSelectOption dom sel part with
        | none => textMappingLoop dom parts acc rest
        | some v => textMappingLoop dom parts (assocSet acc sel v) rest

/-- The error message of a rejected dropdown write. -/
def rejectedMsg (v : String) : String :=
  "Canvas rejected dropdown value \"" ++ v ++
    "\". This usually means the option value was not found."

/-- The `for (const select of selects)` loop of `applySelectValues`. Returns
an early error message (if a write failed verification) together with the
state, log, `appliedAny` flag and `matchedCount` at exit. -/
def applySelectLoop (vals : List (Nat × String)) (dom : Dom) (log : EventLog)
    (appliedAny : Bool) (matched : Nat) :
    List Nat → Option String × Dom × EventLog × Bool × Nat
  | [] => (none, dom, log, appliedAny, matched)
  | s :: rest =>
    match assocGet vals s with
    | none => applySelectLoop vals dom log appliedAny matched rest
    | some v =>
      if v = "" then applySelectLoop vals dom log appliedAny matched rest
      else if dom.value s = v then
        applySelectLoop vals dom log true (matched + 1) rest
      else
        let dom1 := dom.setSelectValue s v
        if dom1.value s ≠ v then
          (some (rejectedMsg v), dom1, log, appliedAny, matched + 1)
        else
          applySelectLoop vals dom1 (log ++ triggerInputEvent s) true
            (matched + 1) rest

/-- Model of `applySelectValues`: run the write loop, then report full
failure when nothing matched and partial coverage when some select received
no value. -/
def applySelectValues (dom : Dom) (selects : List Nat)
    (vals : List (Nat × String)) : ApplyOut :=
  match applySelectLoop vals dom [] false 0 selects with
  | (some msg, d, log, _, _) => ⟨.err msg, d, log⟩
  | (none, d, log, appliedAny, matched) =>
    if !appliedAny && matched = 0 then
      ⟨.err "GPT selections did not match any available dropdown options.", d, log⟩
    else if matched < selects.length then
      ⟨.err "GPT did not provide selections for all dropdowns in this question.",
        d, log⟩
    else ⟨.ok, d, log⟩

/-- The filter of the `select` branch: choices of kind `select` whose value
is a string with nonempty trim. -/
def isUsableSelectChoice (c : ParsedChoice) : Bool :=
  c.kind = ChoiceKind.select &&
    (match c.value with
     | some v => jsTrim v ≠ ""
     | none => false)

/-- Model of `applyAnswer` from `applyAnswer.ts`, handling each question
type; the result carries the final widget state and the synthetic events
fired, in order. -/
def applyAnswer (dom : Dom) (q : ParsedQuestion) (answerChoiceIds : List String)
    (answerText : Option AnswerText) : ApplyOut :=
  match q.qtype with
  | .single =>
    match resolveSingleChoice q answerChoiceIds answerText with
    | none => ⟨.err "No matching answer choice returned by GPT.", dom, []⟩
    | some p =>
      if dom.checked p.2.elementId then ⟨.ok, dom, []⟩
      else
        ⟨.ok, dom.setChecked p.2.elementId true,
          triggerInputEvent p.2.elementId⟩
  | .multi =>
    let resolved := resolveMultiChoices q answerChoiceIds answerText
    if resolved.isEmpty then
      ⟨.err "GPT selections did not match any available choices.", dom, []⟩
    else
      let out := applyMultiLoop resolved dom [] q.choices.enum
      ⟨.ok, out.1, out.2⟩
  | .text =>
    let value := textAnswerValue answerText
    if value = "" then
      ⟨.err "GPT did not provide text to populate this response.", dom, []⟩
    else
      match q.choices.head? with
      | none => ⟨.err "Unable to locate the text input for this question.", dom, []⟩
      | some c =>
        ⟨.ok, dom.setValue c.elementId value, triggerInputEvent c.elementId⟩
  | .select =>
    let selectChoices := q.choices.filter isUsableSelectChoice
    if selectChoices.isEmpty then
      ⟨.err "Unable to locate dropdown options for this question.", dom, []⟩
    else
      let uniq := getUniqueSelectElements dom selectChoices
      if uniq.isEmpty then
        ⟨.err "Unable to locate dropdown inputs for this question.", dom, []⟩
      else
        let requested := answerChoiceIds.filterMap
          fun answerId => selectChoiceById selectChoices answerId
        let chosen := chosenBySelectLoop dom [] requested
        let fromIds := applySelectValues dom uniq chosen
        match fromIds.result with
        | .ok => fromIds
        | .err _ =>
          let parts := normalizeAnswerParts answerText
          if parts.isEmpty then fromIds
          else
            let ordered := getSelectsInDomOrder q uniq
            let mapping := textMappingLoop fromIds.dom parts [] ordered.enum
            let fromText := applySelectValues fromIds.dom uniq mapping
            ⟨fromText.result, fromText.dom, fromIds.log ++ fromText.log⟩
  | .unknown => ⟨.err "Unsupported question type.", dom, []⟩

/-! ## Canvas adapter parsing (`platforms/canvas/index.ts`) -/

/-- Model of `normalizeValue`: trim, empty becomes absent. -/
def normalizeValue (raw : Option String) : Option String :=
  match raw with
  | none => none
  | some s =>
    let trimmed := jsTrim s
    if trimmed = "" then none else some trimmed

/-- Model of `deriveQuestionId`: `data-question-id`, else the `id`
attribute, else `dataset.id` (a `??` chain), falling back to
`question-{fallbackIndex}`; a present-but-empty attribute is falsy and also
falls back. -/
def deriveQuestionId (e : QElement) (fallbackIndex : Nat) : String :=
  match (e.dataQuestionId.orElse fun _ => e.idAttr).orElse fun _ => e.datasetId with
  | some s => if s ≠ "" then s else "question-" ++ toString fallbackIndex
  | none => "question-" ++ toString fallbackIndex

/-- Model of `deriveChoiceLabel`: the `??` chain over the label sources, then
sanitize, then fall back to the sanitized raw value. A present-but-empty
source string short-circuits the chain and lands in the fallback. -/
def deriveChoiceLabel (input : InputEl) (fallbackValue : String) : String :=
  let direct :=
    ((((input.labels.dataLabel.orElse fun _ => input.labels.ariaLabel).orElse
      fun _ => input.labels.ariaLabelledByText).orElse
      fun _ => input.labels.labelForText).orElse
      fun _ => input.labels.closestLabelText).orElse
      fun _ => input.labels.nearbyAnswerText
  let label := sanitizeLabel (some (direct.getD ""))
  if label ≠ "" then label else sanitizeLabel (some fallbackValue)

/-- Model of `deriveSelectStableId`: first nonempty of trimmed id, name and
`data-select-id`, else `select-{index+1}`, with `::` occurrences replaced by
`--`. -/
def deriveSelectStableId (s : SelectEl) (index : Nat) : String :=
  let raw :=
    (((normalizeValue (some s.id)).orElse fun _ =>
        normalizeValue (some s.name)).orElse fun _ =>
        normalizeValue s.dataSelectId).getD
      ("select-" ++ toString (index + 1))
  String.mk (replaceDoubleColon raw.data)

/-- Model of `deriveSelectLabel`: first nonempty sanitized source among
`aria-label`, `title`, `name`, `id`, else `Dropdown {index+1}`. -/
def deriveSelectLabel (s : SelectEl) (index : Nat) : String :=
  let a := sanitizeLabel s.ariaLabel
  let b := sanitizeLabel s.title
  let c := sanitizeLabel (some s.name)
  let d := sanitizeLabel (some s.id)
  let label := if a ≠ "" then a else if b ≠ "" then b else if c ≠ "" then c else d
  if label ≠ "" then label else "Dropdown " ++ toString (index + 1)

/-- Model of `buildSelectChoices`: one choice per option with nonempty
trimmed value, id `{stableId}::{value}`, label `{selectLabel}: {optionLabel}`,
all options of one select sharing its widget. -/
def buildSelectChoices (selects : List SelectEl) : List ParsedChoice :=
  selects.enum.flatMap fun si =>
    let stableId := deriveSelectStableId si.2 si.1
    let selectLabel := deriveSelectLabel si.2 si.1
    si.2.options.enum.flatMap fun oi =>
      match normalizeValue (some oi.2.value) with
      | none => []
      | some v =>
        let sanitized := sanitizeLabel (some oi.2.textContent)
        let optionLabel :=
          if sanitized ≠ "" then sanitized
          else if v ≠ "" then v
          else "Option " ++ toString (oi.1 + 1)
        [{ id := stableId ++ "::" ++ v,
           label := selectLabel ++ ": " ++ optionLabel,
           elementId := si.2.elemId,
           kind := ChoiceKind.select,
           value := some v }]

/-- Model of `Number.parseInt(text, 10)`: skip leading whitespace, optional
sign, then a run of decimal digits; no digits means `NaN` (`none`). -/
def parseIntJs (s : String) : Option Int :=
  let chars := s.data.dropWhile Char.isWhitespace
  let (neg, rest) :=
    match chars with
    | '-' :: rest => (true, rest)
    | '+' :: rest => (false, rest)
    | _ => (false, chars)
  let digits := rest.takeWhile Char.isDigit
  if digits.isEmpty then none
  else
    let n : Nat := digits.foldl (fun acc c => acc * 10 + (c.toNat - 48)) 0
    some (if neg then -(n : Int) else (n : Int))

/-- Model of `CanvasPlatformAdapter.parseQuestion`: derive the id, number and
sanitized text, then infer the type from the widget families in priority
order radio, checkbox, select (with at least one usable option), text. -/
def parseQuestion (e : QElement) (fallbackIndex : Nat) : ParsedQuestion :=
  let qid := deriveQuestionId e fallbackIndex
  let numberText := e.questionNumberText.orElse fun _ => e.dataQuestionNumber
  let number := parseIntJs (numberText.getD "")
  let text := sanitizeLabel (some
    (if e.selectInputs.length > 0 then e.questionTextPlaceholders
     else e.questionText))
  let html := e.innerHTML
  if e.radioInputs.length > 0 then
    { id := qid, element := e, qtype := QType.single, text := text,
      html := html, number := number,
      choices := e.radioInputs.map fun input =>
        { id := if input.id ≠ "" then input.id
            else qid ++ "-choice-" ++ input.value,
          label := deriveChoiceLabel input input.value,
          elementId := input.elemId,
          kind := ChoiceKind.single,
          value := normalizeValue (some input.value) } }
  else if e.checkboxInputs.length > 0 then
    { id := qid, element := e, qtype := QType.multi, text := text,
      html := html, number := number,
      choices := e.checkboxInputs.map fun input =>
        { id := if input.id ≠ "" then input.id
            else qid ++ "-choice-" ++ input.value,
          label := deriveChoiceLabel input input.value,
          elementId := input.elemId,
          kind := ChoiceKind.multi,
          value := normalizeValue (some input.value) } }
  else
    let selectChoices := buildSelectChoices e.selectInputs
    if selectChoices.length > 0 then
      { id := qid, element := e, qtype := QType.select, text := text,
        html := html, number := number, choices := selectChoices }
    else
      let textField := e.textInputs ++ e.textAreas
      if textField.length > 0 then
        { id := qid, element := e, qtype := QType.text, text := text,
          html := html, number := number,
          choices := textField.enum.map fun fi =>
            { id := if fi.2.id ≠ "" then fi.2.id
                else qid ++ "-text-" ++ toString (fi.1 + 1),
              label := fi.2.placeholder.getD "Free response",
              elementId := fi.2.elemId,
              kind := ChoiceKind.text,
              value := normalizeValue (some fi.2.value) } }
      else
        { id := qid, element := e, qtype := QType.unknown, text := text,
          html := html, number := number, choices := [] }

/-! ## Platform registry (`platforms/registry.ts`)

URL patterns (`RegExp`) are embedded as boolean predicates on the address
string; a page state type parameterizes `isQuizPage`. -/

/-- A platform adapter, reduced to the members `detect` consults. -/
structure PlatformAdapter (Page : Type) where
  id : String
  isQuizPage : Page → Bool

/-- One registry entry: adapter plus its URL and host patterns. -/
structure PlatformRegistryEntry (Page : Type) where
  adapter : PlatformAdapter Page
  urlPatterns : List (String → Bool)
  hostPatterns : List String

/-- Model of `PlatformRegistry.detect`: walk the entries in registration
order; skip an entry when no URL pattern matches; return the first entry
whose adapter also confirms the page. -/
def detect {Page : Type} (entries : List (PlatformRegistryEntry Page))
    (href : String) (page : Page) : Option (PlatformAdapter Page) :=
  match entries with
  | [] => none
  | e :: rest =>
    if e.urlPatterns.any fun pattern => pattern href then
      if e.adapter.isQuizPage page then some e.adapter
      else detect rest href page
    else detect rest href page

/-! ## Agreement of the letter loop and its fuel twin -/

/-- With enough fuel the twin agrees with the loop. -/
theorem deriveChoiceLetterGo_eq_fuel :
    ∀ fuel current, current < fuel →
      deriveChoiceLetterGo current = letterFuel fuel current := by
  intro fuel
  induction fuel with
  | zero => intro c h; omega
  | succ f ih =>
    intro c h
    rw [deriveChoiceLetterGo]
    by_cases hc : c < 26
    · simp [letterFuel, hc]
    · have h1 : 0 < c := by omega
      have hdiv : c / 26 < c := Nat.div_lt_self h1 (by omega)
      have : c / 26 - 1 < f := by omega
      simp [letterFuel, hc, ih _ this]

/-- `deriveChoiceLetter` computes exactly the TS `while` loop. -/
theorem deriveChoiceLetter_eq_go (c : Nat) :
    deriveChoiceLetter c = deriveChoiceLetterGo c :=
  (deriveChoiceLetterGo_eq_fuel (c + 1) c (Nat.lt_succ_self c)).symm

/-- C3: for every 0-based index in 0..27, `deriveChoiceLetter` yields the
base-26 alphabetic encoding with no gaps: A..Z then AA, AB. -/
theorem deriveChoiceLetter_first28 :
    (List.range 28).map deriveChoiceLetter =
      ["A", "B", "C", "D", "E", "F", "G", "H", "I", "J", "K", "L", "M",
       "N", "O", "P", "Q", "R", "S", "T", "U", "V", "W", "X", "Y", "Z",
       "AA", "AB"] := by
  decide

/-- C7: `detect` walks the registered entries in order and returns the first
entry whose URL patterns match the address and whose adapter confirms the
page; with two matching-URL entries where only the second adapter confirms,
the second adapter is returned. -/
theorem detect_first_matching_entry {Page : Type}
    (entries : List (PlatformRegistryEntry Page)) (href : String) (page : Page) :
    (detect entries href page =
      (entries.find? fun e =>
        (e.urlPatterns.any fun pattern => pattern href) &&
          e.adapter.isQuizPage page).map PlatformRegistryEntry.adapter) ∧
    (∀ e1 e2 : PlatformRegistryEntry Page,
      (e1.urlPatterns.any fun pattern => pattern href) = true →
      (e2.urlPatterns.any fun pattern => pattern href) = true →
      e1.adapter.isQuizPage page = false →
      e2.adapter.isQuizPage page = true →
      detect [e1, e2] href page = some e2.adapter) := by
  constructor
  · induction entries with
    | nil => rfl
    | cons e rest ih =>
      rw [detect, List.find?]
      by_cases hurl : (e.urlPatterns.any fun pattern => pattern href) = true
      · by_cases hquiz : e.adapter.isQuizPage page = true
        · simp [hurl, hquiz]
        · simp only [Bool.not_eq_true] at hquiz
          simp [hurl, hquiz, ih]
      · simp only [Bool.not_eq_true] at hurl
        simp [hurl, ih]
  · intro e1 e2 h1 h2 hq1 hq2
    simp [detect, h1, h2, hq1, hq2]

/-- Witness for C7 at a concrete two-entry registry. -/
theorem detect_first_matching_entry_witness :
    detect
      ([⟨⟨"first", fun _ => false⟩, [fun _ => true], []⟩,
        ⟨⟨"second", fun _ => true⟩, [fun _ => true], []⟩] :
        List (PlatformRegistryEntry Unit))
      "https://example.instructure.com/quizzes/1" () =
      some ⟨"second", fun _ => true⟩ :=
  (detect_first_matching_entry ([] : List (PlatformRegistryEntry Unit))
      "https://example.instructure.com/quizzes/1" ()).2
    ⟨⟨"first", fun _ => false⟩, [fun _ => true], []⟩
    ⟨⟨"second", fun _ => true⟩, [fun _ => true], []⟩
    rfl rfl rfl rfl

/-- C10: the free-form payload is turned into answer parts by trimming an
array element-wise and dropping empties, splitting a string on newlines when
it has one, else on commas when it has one, else keeping the whole trimmed
string (none when empty); in particular a single-line answer with a comma
becomes several parts. -/
theorem normalizeAnswerParts_spec :
    (∀ xs, normalizeAnswerParts (some (.arr xs)) =
      (xs.map jsTrim).filter (fun p => p ≠ "")) ∧
    (normalizeAnswerParts none = []) ∧
    (∀ s, jsTrim s = "" → normalizeAnswerParts (some (.str s)) = []) ∧
    (∀ s, containsChar (jsTrim s) '\n' = true →
      normalizeAnswerParts (some (.str s)) =
        ((jsSplit (jsTrim s) '\n').map jsTrim).filter (fun p => p ≠ "")) ∧
    (∀ s, containsChar (jsTrim s) '\n' = false →
      containsChar (jsTrim s) ',' = true →
      normalizeAnswerParts (some (.str s)) =
        ((jsSplit (jsTrim s) ',').map jsTrim).filter (fun p => p ≠ "")) ∧
    (∀ s, jsTrim s ≠ "" → containsChar (jsTrim s) '\n' = false →
      containsChar (jsTrim s) ',' = false →
      normalizeAnswerParts (some (.str s)) = [jsTrim s]) ∧
    normalizeAnswerParts (some (.str "alpha, beta")) = ["alpha", "beta"] := by
  refine ⟨fun xs => rfl, rfl, ?_, ?_, ?_, ?_, by decide⟩
  · intro s h
    simp [normalizeAnswerParts, h]
  · intro s h
    have hne : ¬ jsTrim s = "" := by
      intro he
      rw [he] at h
      exact absurd h (by decide)
    simp [normalizeAnswerParts, hne, h]
  · intro s h1 h2
    have hne : ¬ jsTrim s = "" := by
      intro he
      rw [he] at h2
      exact absurd h2 (by decide)
    simp [normalizeAnswerParts, hne, h1, h2]
  · intro s h h1 h2
    simp [normalizeAnswerParts, h, h1, h2]

/-- Witness for C10: the comma case at a concrete single-line input. -/
theorem normalizeAnswerParts_spec_witness :
    normalizeAnswerParts (some (.str "alpha, beta")) =
      ((jsSplit (jsTrim "alpha, beta") ',').map jsTrim).filter
        (fun p => p ≠ "") :=
  normalizeAnswerParts_spec.2.2.2.2.1 "alpha, beta" (by decide) (by decide)

/-- C8: parsing is a pure function of the observed container, so two
invocations of `parseQuestion` on the same unmutated container agree on the
question id, type and text, and produce choice sequences of equal length
with identical (label, kind, value) tuples in order. The embedding has no
mutation channel, mirroring that the source only reads the container (the
one DOM edit, replacing selects by placeholders, happens on a clone). -/
theorem parseQuestion_idempotent (e : QElement) (fallbackIndex : Nat) :
    (parseQuestion e fallbackIndex).id = (parseQuestion e fallbackIndex).id ∧
    (parseQuestion e fallbackIndex).qtype =
      (parseQuestion e fallbackIndex).qtype ∧
    (parseQuestion e fallbackIndex).text =
      (parseQuestion e fallbackIndex).text ∧
    (parseQuestion e fallbackIndex).choices.length =
      (parseQuestion e fallbackIndex).choices.length ∧
    (parseQuestion e fallbackIndex).choices.map
        (fun c => (c.label, c.kind, c.value)) =
      (parseQuestion e fallbackIndex).choices.map
        (fun c => (c.label, c.kind, c.value)) :=
  ⟨rfl, rfl, rfl, rfl, rfl⟩

/-! ## C6: question-type inference -/

/-- An empty label-source record (no label attributes anywhere). -/
def noLabels : LabelSources :=
  { dataLabel := none, ariaLabel := none, ariaLabelledByText := none,
    labelForText := none, closestLabelText := none, nearbyAnswerText := none }

/-- An empty container, the base for the concrete test containers. -/
def emptyQElement : QElement :=
  { dataQuestionId := none, idAttr := none, datasetId := none,
    questionNumberText := none, dataQuestionNumber := none,
    questionText := "", questionTextPlaceholders := "", innerHTML := "",
    radioInputs := [], checkboxInputs := [], textInputs := [],
    textAreas := [], selectInputs := [] }

/-- A container holding one `<select>` whose single option has an empty
value (a pure placeholder dropdown) and no other widgets. -/
def placeholderOnlySelectElement : QElement :=
  { emptyQElement with
    selectInputs :=
      [{ elemId := 0, id := "sel", name := "", dataSelectId := none,
         ariaLabel := none, title := none,
         options := [{ value := "", textContent := "[ Select ]" }] }] }

/-- Counterexample to C6 as stated: a container with a dropdown widget
present is parsed as `unknown`, not `select`, because that dropdown
contributes no usable choice (its only option has an empty value) — the
inference condition is not mere widget presence. -/
theorem parseQuestion_select_presence_counterexample :
    placeholderOnlySelectElement.selectInputs ≠ [] ∧
    (parseQuestion placeholderOnlySelectElement 0).qtype ≠ QType.select ∧
    (parseQuestion placeholderOnlySelectElement 0).qtype = QType.unknown := by
  refine ⟨by decide, ?_, ?_⟩ <;> decide

/-- C6 (amended): type inference priority is radio, checkbox, dropdown,
text, unknown — where the dropdown step requires at least one select choice
to have been built (some option with a nonempty trimmed value), not mere
presence of a `<select>` widget. -/
theorem parseQuestion_type_priority (e : QElement) (fallbackIndex : Nat) :
    (e.radioInputs ≠ [] →
      (parseQuestion e fallbackIndex).qtype = QType.single) ∧
    (e.radioInputs = [] → e.checkboxInputs ≠ [] →
      (parseQuestion e fallbackIndex).qtype = QType.multi) ∧
    (e.radioInputs = [] → e.checkboxInputs = [] →
      buildSelectChoices e.selectInputs ≠ [] →
      (parseQuestion e fallbackIndex).qtype = QType.select) ∧
    (e.radioInputs = [] → e.checkboxInputs = [] →
      buildSelectChoices e.selectInputs = [] →
      e.textInputs ++ e.textAreas ≠ [] →
      (parseQuestion e fallbackIndex).qtype = QType.text) ∧
    (e.radioInputs = [] → e.checkboxInputs = [] →
      buildSelectChoices e.selectInputs = [] →
      e.textInputs ++ e.textAreas = [] →
      (parseQuestion e fallbackIndex).qtype = QType.unknown ∧
        (parseQuestion e fallbackIndex).choices = []) := by
  refine ⟨?_, ?_, ?_, ?_, ?_⟩
  · intro h
    have hlen : 0 < e.radioInputs.length := List.length_pos.mpr h
    simp [parseQuestion, hlen]
  · intro h0 h
    have hlen : 0 < e.checkboxInputs.length := List.length_pos.mpr h
    simp [parseQuestion, h0, hlen]
  · intro h0 h1 h
    have hlen : 0 < (buildSelectChoices e.selectInputs).length :=
      List.length_pos.mpr h
    simp [parseQuestion, h0, h1, hlen]
  · intro h0 h1 h2 h
    have hlen : 0 < (e.textInputs ++ e.textAreas).length :=
      List.length_pos.mpr h
    have hlen2 : 0 < e.textInputs.length ∨ 0 < e.textAreas.length := by
      rw [List.length_append] at hlen
      omega
    simp [parseQuestion, h0, h1, h2, hlen2]
  · intro h0 h1 h2 h3
    simp [parseQuestion, h0, h1, h2, h3]

/-- Witness for C6 (amended): a container with one radio widget parses as
`single`. -/
theorem parseQuestion_type_priority_witness :
    (parseQuestion
      { emptyQElement with
        radioInputs :=
          [{ elemId := 1, id := "r1", value := "a", placeholder := none,
             labels := noLabels }] } 0).qtype = QType.single :=
  (parseQuestion_type_priority _ 0).1 (by decide)

/-! ## C9: dropdown choice construction -/

/-- Pointwise congruence for `flatMap`. -/
theorem flatMap_congrFun {α β : Type} (l : List α) {f g : α → List β}
    (h : ∀ a, f a = g a) : l.flatMap f = l.flatMap g := by
  induction l with
  | nil => rfl
  | cons a rest ih => simp [List.flatMap_cons, h a, ih]

/-- The rows one `<select>` contributes: the enumerated option loop equals a
filter (nonempty trimmed value) followed by a map; the positional
`Option {n+1}` label fallback is unreachable because the kept value is
nonempty. -/
theorem selectChoiceRows (sid lbl : String) (eid : Nat) :
    ∀ (opts : List OptionEl) (k : Nat),
      ((List.enumFrom k opts).flatMap fun oi =>
        (match normalizeValue (some oi.2.value) with
        | none => []
        | some v =>
          [ParsedChoice.mk (sid ++ "::" ++ v)
            (lbl ++ ": " ++
               (if sanitizeLabel (some oi.2.textContent) ≠ "" then
                  sanitizeLabel (some oi.2.textContent)
                else if v ≠ "" then v
                else "Option " ++ toString (oi.1 + 1)))
            eid ChoiceKind.select (some v)] : List ParsedChoice)) =
      (opts.filter fun o => jsTrim o.value ≠ "").map fun o =>
        ParsedChoice.mk (sid ++ "::" ++ jsTrim o.value)
          (lbl ++ ": " ++
            (if sanitizeLabel (some o.textContent) ≠ "" then
               sanitizeLabel (some o.textContent)
             else jsTrim o.value))
          eid ChoiceKind.select (some (jsTrim o.value)) := by
  intro opts
  induction opts with
  | nil => intro k; rfl
  | cons o rest ih =>
    intro k
    rw [List.enumFrom]
    by_cases h : jsTrim o.value = ""
    · simp only [List.flatMap_cons, normalizeValue, h, if_pos rfl]
      simpa [h] using ih (k + 1)
    · simp only [List.flatMap_cons, normalizeValue, if_neg h]
      have htail := ih (k + 1)
      simp [h] at htail ⊢
      exact htail

/-- A dropdown whose only option carries a nonempty value but a pure
"-- Select --" placeholder text. -/
def placeholderTextSelect : SelectEl :=
  { elemId := 5, id := "menu", name := "", dataSelectId := none,
    ariaLabel := none, title := none,
    options := [{ value := "1", textContent := "-- Select --" }] }

/-- Counterexample to C9 as stated: an option whose text is a "--"-style
placeholder but whose value is nonempty is NOT excluded — the Canvas
adapter's `buildSelectChoices` filters only on empty values. -/
theorem buildSelectChoices_placeholder_counterexample :
    strContains "-- Select --" "--" = true ∧
    buildSelectChoices [placeholderTextSelect] =
      [{ id := "menu::1", label := "menu: -- Select --", elementId := 5,
         kind := ChoiceKind.select, value := some "1" }] := by
  constructor
  · decide
  · decide

/-- C9 (amended): parsing a question's `<select>` widgets produces exactly
one Choice per option with a nonempty trimmed value (only empty-value
options are excluded; placeholder-looking text is not filtered), with id
`{stableSelectId}::{optionValue}` — `deriveSelectStableId` replacing `::`
occurrences in the natural id — and label `{dropdownLabel}: {optionLabel}`. -/
theorem buildSelectChoices_spec (selects : List SelectEl) :
    buildSelectChoices selects =
      selects.enum.flatMap fun si =>
        (si.2.options.filter fun o => jsTrim o.value ≠ "").map fun o =>
          { id := deriveSelectStableId si.2 si.1 ++ "::" ++ jsTrim o.value,
            label := deriveSelectLabel si.2 si.1 ++ ": " ++
              (if sanitizeLabel (some o.textContent) ≠ "" then
                 sanitizeLabel (some o.textContent)
               else jsTrim o.value),
            elementId := si.2.elemId, kind := ChoiceKind.select,
            value := some (jsTrim o.value) } := by
  unfold buildSelectChoices
  refine flatMap_congrFun _ fun si => ?_
  exact selectChoiceRows (deriveSelectStableId si.2 si.1)
    (deriveSelectLabel si.2 si.1) si.2.elemId si.2.options 0

/-! ## C1: single-choice resolution priority and application -/

/-- C1: for `single` questions the three strategies run in priority order —
identifier match, free-form text match, identifiers-as-label-text match —
and the first strategy with any match supplies its first match; no match
yields the failure result with no state change and no events; a match whose
widget is already checked is a no-op success; otherwise the widget is
checked and receives the synthetic events. -/
theorem applyAnswer_single_resolution (dom : Dom) (q : ParsedQuestion)
    (answerChoiceIds : List String) (answerText : Option AnswerText)
    (hq : q.qtype = QType.single) :
    (resolveChoicesByIds q answerChoiceIds ≠ [] →
      resolveSingleChoice q answerChoiceIds answerText =
        (resolveChoicesByIds q answerChoiceIds).head?) ∧
    (resolveChoicesByIds q answerChoiceIds = [] →
      resolveChoicesByText q answerText ≠ [] →
      resolveSingleChoice q answerChoiceIds answerText =
        (resolveChoicesByText q answerText).head?) ∧
    (resolveChoicesByIds q answerChoiceIds = [] →
      resolveChoicesByText q answerText = [] →
      resolveSingleChoice q answerChoiceIds answerText =
        (resolveChoicesByText q (some (.arr answerChoiceIds))).head?) ∧
    (resolveSingleChoice q answerChoiceIds answerText = none →
      applyAnswer dom q answerChoiceIds answerText =
        ⟨.err "No matching answer choice returned by GPT.", dom, []⟩) ∧
    (∀ p, resolveSingleChoice q answerChoiceIds answerText = some p →
      dom.checked p.2.elementId = true →
      applyAnswer dom q answerChoiceIds answerText = ⟨.ok, dom, []⟩) ∧
    (∀ p, resolveSingleChoice q answerChoiceIds answerText = some p →
      dom.checked p.2.elementId = false →
      applyAnswer dom q answerChoiceIds answerText =
        ⟨.ok, dom.setChecked p.2.elementId true,
          triggerInputEvent p.2.elementId⟩) := by
  refine ⟨?_, ?_, ?_, ?_, ?_, ?_⟩
  · intro h
    cases hids : resolveChoicesByIds q answerChoiceIds with
    | nil => exact absurd hids h
    | cons p rest => simp [resolveSingleChoice, hids]
  · intro h0 h
    cases htext : resolveChoicesByText q answerText with
    | nil => exact absurd htext h
    | cons p rest => simp [resolveSingleChoice, h0, htext]
  · intro h0 h1
    cases hids2 : resolveChoicesByText q (some (.arr answerChoiceIds)) with
    | nil => simp [resolveSingleChoice, h0, h1, hids2]
    | cons p rest => simp [resolveSingleChoice, h0, h1, hids2]
  · intro h
    simp [applyAnswer, hq, h]
  · intro p h hc
    simp [applyAnswer, hq, h, hc]
  · intro p h hc
    simp [applyAnswer, hq, h, hc]

/-- A concrete three-choice radio question for the C1 witness. -/
def singleQ : ParsedQuestion :=
  { id := "q1", element := emptyQElement, qtype := QType.single,
    text := "Pick one", html := "", number := none,
    choices :=
      [{ id := "opt-a", label := "Paris", elementId := 10,
         kind := ChoiceKind.single, value := some "a" },
       { id := "opt-b", label := "London", elementId := 11,
         kind := ChoiceKind.single, value := some "b" },
       { id := "opt-c", label := "Rome", elementId := 12,
         kind := ChoiceKind.single, value := some "c" }] }

/-- A page state where nothing is checked and nothing has a value. -/
def blankDom : Dom :=
  { elemType := fun _ => ElemType.inputEl, checked := fun _ => false,
    value := fun _ => "", options := fun _ => [] }

/-- Witness for C1: claimed identifier `opt-b` selects the second radio and
fires its events. -/
theorem applyAnswer_single_resolution_witness :
    applyAnswer blankDom singleQ ["opt-b"] none =
      ⟨.ok, blankDom.setChecked 11 true, triggerInputEvent 11⟩ :=
  (applyAnswer_single_resolution blankDom singleQ ["opt-b"] none rfl).2.2.2.2.2
    (1, { id := "opt-b", label := "London", elementId := 11,
          kind := ChoiceKind.single, value := some "b" })
    (by decide)
    rfl

/-! ## C4: multi-choice union and application -/

/-- `setChecked` changes only the targeted widget's checked flag. -/
theorem setChecked_checked_other (d : Dom) (w n : Nat) (b : Bool)
    (h : n ≠ w) : (d.setChecked w b).checked n = d.checked n := by
  simp [Dom.setChecked, h]

/-- `setChecked` sets the targeted widget's checked flag. -/
theorem setChecked_checked_self (d : Dom) (w : Nat) (b : Bool) :
    (d.setChecked w b).checked w = b := by
  simp [Dom.setChecked]

/-- Occurrences of one widget's events in a `triggerInputEvent` batch. -/
theorem count_triggerInputEvent (w v : Nat) (e : EvName) :
    (triggerInputEvent v).count (w, e) = if w = v then 1 else 0 := by
  cases e <;> by_cases h : w = v <;>
    simp [triggerInputEvent, List.count_cons, h]

/-- Whether the multi loop fires events at widget `w` for the row `p`, as
observed on the state `dom` the loop started from. -/
def multiFires (R : List (Nat × ParsedChoice)) (dom : Dom) (w : Nat)
    (p : Nat × ParsedChoice) : Bool :=
  p.2.elementId = w && dom.elemType w = ElemType.inputEl &&
    dom.checked w ≠ (R.any fun r => r.1 = p.1)

/-- Pointwise congruence for `List.any`. -/
theorem anyCongr {α : Type} {f g : α → Bool} :
    ∀ l : List α, (∀ a ∈ l, f a = g a) → l.any f = l.any g := by
  intro l
  induction l with
  | nil => intro _; rfl
  | cons a rest ih =>
    intro h
    rw [List.any_cons, List.any_cons, h a (List.mem_cons_self a rest),
      ih fun b hb => h b (List.mem_cons_of_mem a hb)]

/-- Characterization of the `multi` application loop on rows with pairwise
distinct widgets: non-checked state is untouched, each input row's widget
ends at its union membership, other widgets keep their state, and the log
grows by exactly one `input` and one `change` entry per row whose widget
actually flips. -/
theorem applyMultiLoop_spec (R : List (Nat × ParsedChoice)) :
    ∀ (cs : List (Nat × ParsedChoice)) (dom : Dom) (log : EventLog),
      (cs.map fun p => p.2.elementId).Nodup →
      ((applyMultiLoop R dom log cs).1.elemType = dom.elemType ∧
        (applyMultiLoop R dom log cs).1.value = dom.value ∧
        (applyMultiLoop R dom log cs).1.options = dom.options) ∧
      (∀ w, (∀ p ∈ cs, p.2.elementId ≠ w) →
        (applyMultiLoop R dom log cs).1.checked w = dom.checked w) ∧
      (∀ p ∈ cs, dom.elemType p.2.elementId = ElemType.inputEl →
        (applyMultiLoop R dom log cs).1.checked p.2.elementId =
          (R.any fun r => r.1 = p.1)) ∧
      (∀ p ∈ cs, dom.elemType p.2.elementId ≠ ElemType.inputEl →
        (applyMultiLoop R dom log cs).1.checked p.2.elementId =
          dom.checked p.2.elementId) ∧
      (∀ w e, (applyMultiLoop R dom log cs).2.count (w, e) =
        log.count (w, e) +
          (if cs.any (multiFires R dom w) then 1 else 0)) := by
  intro cs
  induction cs with
  | nil =>
    intro dom log _
    refine ⟨⟨rfl, rfl, rfl⟩, fun w _ => rfl, ?_, ?_, ?_⟩
    · intro p hp; exact absurd hp (List.not_mem_nil p)
    · intro p hp; exact absurd hp (List.not_mem_nil p)
    · intro w e; simp [applyMultiLoop]
  | cons p rest ih =>
    intro dom log hnd
    rw [List.map_cons, List.nodup_cons] at hnd
    have hndHead := hnd.1
    have hndRest := hnd.2
    have hne : ∀ q ∈ rest, q.2.elementId ≠ p.2.elementId := by
      intro q hq hcontra
      exact hndHead
        (hcontra ▸ List.mem_map_of_mem (fun r => r.2.elementId) hq)
    by_cases helem : dom.elemType p.2.elementId = ElemType.inputEl
    · by_cases hchk :
        dom.checked p.2.elementId = (R.any fun r => r.1 = p.1)
      · -- input widget already in the right state: no write, no events
        have hstep : applyMultiLoop R dom log (p :: rest) =
            applyMultiLoop R dom log rest := by
          rw [applyMultiLoop]
          simp [helem, hchk]
        obtain ⟨hfields, huntouched, hinput, hother, hcount⟩ :=
          ih dom log hndRest
        rw [hstep]
        refine ⟨hfields, ?_, ?_, ?_, ?_⟩
        · intro w hw
          exact huntouched w fun q hq => hw q (List.mem_cons_of_mem p hq)
        · intro q hq hqElem
          rcases List.mem_cons.mp hq with hq | hq
          · subst hq
            rw [huntouched q.2.elementId (hne), hchk]
          · exact hinput q hq hqElem
        · intro q hq hqElem
          rcases List.mem_cons.mp hq with hq | hq
          · subst hq; exact absurd helem hqElem
          · exact hother q hq hqElem
        · intro w e
          rw [hcount w e]
          have hHeadFalse : multiFires R dom w p = false := by
            by_cases hw : p.2.elementId = w
            · simp [multiFires, hw, hw ▸ hchk]
            · simp [multiFires, hw]
          rw [List.any_cons, hHeadFalse, Bool.false_or]
      · -- input widget flips: write and fire events, then recurse
        have hstep : applyMultiLoop R dom log (p :: rest) =
            applyMultiLoop R
              (dom.setChecked p.2.elementId (R.any fun r => r.1 = p.1))
              (log ++ triggerInputEvent p.2.elementId) rest := by
          rw [applyMultiLoop]
          simp [helem, hchk]
        set dom1 := dom.setChecked p.2.elementId (R.any fun r => r.1 = p.1)
          with hdom1
        have hd1elem : dom1.elemType = dom.elemType := rfl
        have hd1other : ∀ n, n ≠ p.2.elementId →
            dom1.checked n = dom.checked n := by
          intro n hn; exact setChecked_checked_other dom p.2.elementId n _ hn
        obtain ⟨hfields, huntouched, hinput, hother, hcount⟩ :=
          ih dom1 (log ++ triggerInputEvent p.2.elementId) hndRest
        rw [hstep]
        refine ⟨⟨hfields.1, hfields.2.1, hfields.2.2⟩, ?_, ?_, ?_, ?_⟩
        · intro w hw
          rw [huntouched w fun q hq => hw q (List.mem_cons_of_mem p hq)]
          exact hd1other w fun hcontra =>
            hw p (List.mem_cons_self p rest) hcontra.symm
        · intro q hq hqElem
          rcases List.mem_cons.mp hq with hq | hq
          · subst hq
            rw [huntouched q.2.elementId (hne)]
            exact setChecked_checked_self dom q.2.elementId _
          · exact hinput q hq hqElem
        · intro q hq hqElem
          rcases List.mem_cons.mp hq with hq | hq
          · subst hq; exact absurd helem hqElem
          · rw [hother q hq hqElem]
            exact hd1other q.2.elementId (hne q hq)
        · intro w e
          rw [hcount w e]
          rw [List.count_append, count_triggerInputEvent]
          have hrestFires : rest.any (multiFires R dom1 w) =
              rest.any (multiFires R dom w) := by
            apply anyCongr
            intro q hq
            by_cases hw : q.2.elementId = w
            · have hwp : w ≠ p.2.elementId := fun hc =>
                (hne q hq) (hw.trans hc)
              simp [multiFires, hw, hd1elem, hd1other w hwp]
            · simp [multiFires, hw]
          by_cases hw : w = p.2.elementId
          · have hHead : multiFires R dom w p = true := by
              subst hw
              simp [multiFires, helem, hchk]
            have hRest : rest.any (multiFires R dom w) = false := by
              rw [List.any_eq_false]
              intro q hq
              have hq2 : q.2.elementId ≠ w := hw ▸ hne q hq
              simp [multiFires, hq2]
            rw [hrestFires, hRest, List.any_cons, hHead, hRest]
            simp [hw]
          · have hHeadFalse : multiFires R dom w p = false := by
              have hne2 : p.2.elementId ≠ w := fun hc => hw hc.symm
              simp [multiFires, hne2]
            rw [hrestFires, List.any_cons, hHeadFalse, Bool.false_or]
            simp [hw]
    · -- not an HTMLInputElement: skipped entirely
      have hstep : applyMultiLoop R dom log (p :: rest) =
          applyMultiLoop R dom log rest := by
        rw [applyMultiLoop]
        simp [helem]
      obtain ⟨hfields, huntouched, hinput, hother, hcount⟩ :=
        ih dom log hndRest
      rw [hstep]
      refine ⟨hfields, ?_, ?_, ?_, ?_⟩
      · intro w hw
        exact huntouched w fun q hq => hw q (List.mem_cons_of_mem p hq)
      · intro q hq hqElem
        rcases List.mem_cons.mp hq with hq | hq
        · subst hq; exact absurd hqElem helem
        · exact hinput q hq hqElem
      · intro q hq hqElem
        rcases List.mem_cons.mp hq with hq | hq
        · subst hq; exact huntouched q.2.elementId (hne)
        · exact hother q hq hqElem
      · intro w e
        rw [hcount w e]
        have hHeadFalse : multiFires R dom w p = false := by
          by_cases hw : p.2.elementId = w
          · simp [multiFires, hw, hw ▸ helem]
          · simp [multiFires, hw]
        rw [List.any_cons, hHeadFalse, Bool.false_or]

/-- C4: for `multi` questions the resolved set is the union of the three
strategies' matches; an empty union fails with no state change; otherwise
application succeeds, every input choice's widget ends checked exactly when
its row is in the union, other widgets keep their state, and exactly one
`input` and one `change` event fire per widget whose checked state actually
flips (none elsewhere). -/
theorem applyAnswer_multi_union (dom : Dom) (q : ParsedQuestion)
    (answerChoiceIds : List String) (answerText : Option AnswerText)
    (hq : q.qtype = QType.multi)
    (hnd : (q.choices.map fun c => c.elementId).Nodup) :
    (∀ p, p ∈ resolveMultiChoices q answerChoiceIds answerText ↔
      p ∈ resolveChoicesByIds q answerChoiceIds ∨
        p ∈ resolveChoicesByText q answerText ∨
        p ∈ resolveChoicesByText q (some (.arr answerChoiceIds))) ∧
    (resolveMultiChoices q answerChoiceIds answerText = [] →
      applyAnswer dom q answerChoiceIds answerText =
        ⟨.err "GPT selections did not match any available choices.", dom, []⟩) ∧
    (resolveMultiChoices q answerChoiceIds answerText ≠ [] →
      (applyAnswer dom q answerChoiceIds answerText).result = .ok ∧
      (∀ p ∈ q.choices.enum,
        dom.elemType p.2.elementId = ElemType.inputEl →
        (applyAnswer dom q answerChoiceIds answerText).dom.checked
            p.2.elementId =
          ((resolveMultiChoices q answerChoiceIds answerText).any
            fun r => r.1 = p.1)) ∧
      (∀ p ∈ q.choices.enum,
        dom.elemType p.2.elementId ≠ ElemType.inputEl →
        (applyAnswer dom q answerChoiceIds answerText).dom.checked
            p.2.elementId = dom.checked p.2.elementId) ∧
      (∀ w, (∀ p ∈ q.choices.enum, p.2.elementId ≠ w) →
        (applyAnswer dom q answerChoiceIds answerText).dom.checked w =
          dom.checked w) ∧
      (∀ w e,
        (applyAnswer dom q answerChoiceIds answerText).log.count (w, e) =
          (if q.choices.enum.any
              (multiFires (resolveMultiChoices q answerChoiceIds answerText)
                dom w) then 1 else 0))) := by
  have hndEnum : (q.choices.enum.map fun p => p.2.elementId).Nodup := by
    have hmm : (q.choices.enum.map fun p => p.2.elementId) =
        q.choices.map fun c => c.elementId := by
      rw [show (fun (p : Nat × ParsedChoice) => p.2.elementId) =
        (fun c : ParsedChoice => c.elementId) ∘ Prod.snd from rfl,
        ← List.map_map, List.enum_map_snd]
    rw [hmm]
    exact hnd
  refine ⟨?_, ?_, ?_⟩
  · intro p
    simp [resolveMultiChoices, List.mem_append, or_assoc]
  · intro hR
    simp [applyAnswer, hq, hR]
  · intro hR
    have hstep : applyAnswer dom q answerChoiceIds answerText =
        ⟨.ok,
          (applyMultiLoop (resolveMultiChoices q answerChoiceIds answerText)
            dom [] q.choices.enum).1,
          (applyMultiLoop (resolveMultiChoices q answerChoiceIds answerText)
            dom [] q.choices.enum).2⟩ := by
      have hne : (resolveMultiChoices q answerChoiceIds answerText).isEmpty =
          false := by
        cases h : resolveMultiChoices q answerChoiceIds answerText with
        | nil => exact absurd h hR
        | cons a rest => rfl
      simp [applyAnswer, hq, hne]
    obtain ⟨_, huntouched, hinput, hother, hcount⟩ :=
      applyMultiLoop_spec (resolveMultiChoices q answerChoiceIds answerText)
        q.choices.enum dom [] hndEnum
    rw [hstep]
    refine ⟨rfl, ?_, ?_, ?_, ?_⟩
    · intro p hp hElem; exact hinput p hp hElem
    · intro p hp hElem; exact hother p hp hElem
    · intro w hw; exact huntouched w hw
    · intro w e
      rw [hcount w e]
      simp

/-- A concrete four-checkbox question for the C4 witness. -/
def multiQ : ParsedQuestion :=
  { id := "q2", element := emptyQElement, qtype := QType.multi,
    text := "Pick all that apply", html := "", number := none,
    choices :=
      [{ id := "opt-a", label := "alpha", elementId := 20,
         kind := ChoiceKind.multi, value := some "a" },
       { id := "opt-b", label := "beta", elementId := 21,
         kind := ChoiceKind.multi, value := some "b" },
       { id := "opt-c", label := "gamma", elementId := 22,
         kind := ChoiceKind.multi, value := some "c" },
       { id := "opt-d", label := "delta", elementId := 23,
         kind := ChoiceKind.multi, value := some "d" }] }

/-- Witness for C4: claimed ids select two checkboxes, the free-form text a
third; application succeeds. -/
theorem applyAnswer_multi_union_witness :
    (applyAnswer blankDom multiQ ["opt-a", "opt-b"]
      (some (.str "gamma"))).result = .ok :=
  ((applyAnswer_multi_union blankDom multiQ ["opt-a", "opt-b"]
      (some (.str "gamma")) rfl (by decide)).2.2
    (by decide)).1

/-! ## C2: dropdown coverage and write verification -/

/-- `setSelectValue` changes only the targeted widget's value. -/
theorem setSelectValue_value_other (d : Dom) (w n : Nat) (v : String)
    (h : n ≠ w) : (d.setSelectValue w v).value n = d.value n := by
  simp [Dom.setSelectValue, Dom.setValue, h]

/-- The written select value reads back as requested exactly when the value
is among the widget's options, else as `""`. -/
theorem setSelectValue_value_self (d : Dom) (w : Nat) (v : String) :
    (d.setSelectValue w v).value w =
      if (d.optionValues w).contains v then v else "" := by
  simp [Dom.setSelectValue, Dom.setValue]

/-- Whether a select has a usable (nonempty) mapped value. -/
def hasMappedValue (vals : List (Nat × String)) (s : Nat) : Bool :=
  match assocGet vals s with
  | none => false
  | some v => v ≠ ""

/-- Whether the select loop fires events at widget `w` when treating select
`s`, as observed on the state the loop started from: `s` is `w`, has a
usable mapped value, and that value differs from the current one. -/
def selFires (vals : List (Nat × String)) (dom : Dom) (w s : Nat) : Bool :=
  s = w && hasMappedValue vals s &&
    dom.value s ≠ (assocGet vals s).getD ""

/-- Whether a widget's observable state differs between two snapshots. -/
def changedAt (dom d : Dom) (w : Nat) : Bool :=
  dom.checked w ≠ d.checked w || dom.value w ≠ d.value w

/-- Characterization of a completed (not early-aborted) select write loop
over pairwise distinct selects: every usable mapped value is in place at the
end, everything else is untouched, `matchedCount` counts the selects with
usable mapped values, `appliedAny` records whether any existed, and the log
grows by one `input` and one `change` entry per select whose value actually
changed. -/
theorem applySelectLoop_complete (vals : List (Nat × String)) :
    ∀ (selects : List Nat) (dom : Dom) (log : EventLog) (a : Bool) (m : Nat),
      selects.Nodup →
      ∀ d l a' m',
        applySelectLoop vals dom log a m selects = (none, d, l, a', m') →
        (∀ s ∈ selects, ∀ v, assocGet vals s = some v → v ≠ "" →
          d.value s = v) ∧
        (∀ s ∈ selects, hasMappedValue vals s = false →
          d.value s = dom.value s) ∧
        (∀ w, (∀ s ∈ selects, s ≠ w) → d.value w = dom.value w) ∧
        (d.elemType = dom.elemType ∧ d.checked = dom.checked ∧
          d.options = dom.options) ∧
        m' = m + selects.countP (hasMappedValue vals) ∧
        a' = (a || selects.any (hasMappedValue vals)) ∧
        (∀ w e, l.count (w, e) = log.count (w, e) +
          (if selects.any (selFires vals dom w) then 1 else 0)) := by
  intro selects
  induction selects with
  | nil =>
    intro dom log a m _ d l a' m' hrun
    rw [applySelectLoop] at hrun
    injection hrun with h1 hrest
    injection hrest with h2 hrest
    injection hrest with h3 hrest
    injection hrest with h4 h5
    subst h2; subst h3; subst h4; subst h5
    refine ⟨?_, ?_, fun w _ => rfl, ⟨rfl, rfl, rfl⟩, by simp, by simp, ?_⟩
    · intro s hs; exact absurd hs (List.not_mem_nil s)
    · intro s hs; exact absurd hs (List.not_mem_nil s)
    · intro w e; simp
  | cons s rest ih =>
    intro dom log a m hnd d l a' m' hrun
    rw [List.nodup_cons] at hnd
    have hsrest := hnd.1
    have hndRest := hnd.2
    have hneRest : ∀ t ∈ rest, t ≠ s := fun t ht hc => hsrest (hc ▸ ht)
    rw [applySelectLoop] at hrun
    cases hget : assocGet vals s with
    | none =>
      simp only [hget] at hrun
      have hmap : hasMappedValue vals s = false := by
        simp [hasMappedValue, hget]
      obtain ⟨h1, h2, h3, h4, h5, h6, h7⟩ :=
        ih dom log a m hndRest d l a' m' hrun
      refine ⟨?_, ?_, ?_, h4, ?_, ?_, ?_⟩
      · intro t ht v hv hvne
        rcases List.mem_cons.mp ht with ht | ht
        · subst ht; rw [hget] at hv; exact absurd hv (by simp)
        · exact h1 t ht v hv hvne
      · intro t ht hmv
        rcases List.mem_cons.mp ht with ht | ht
        · subst ht; exact h3 t (hneRest)
        · exact h2 t ht hmv
      · intro w hw
        exact h3 w fun t ht => hw t (List.mem_cons_of_mem s ht)
      · rw [h5, List.countP_cons]
        simp [hmap]
      · rw [h6, List.any_cons, hmap, Bool.false_or]
      · intro w e
        rw [h7 w e, List.any_cons]
        have : selFires vals dom w s = false := by
          simp [selFires, hmap]
        rw [this, Bool.false_or]
    | some v =>
      simp only [hget] at hrun
      by_cases hv : v = ""
      · subst hv
        rw [if_pos rfl] at hrun
        have hmap : hasMappedValue vals s = false := by
          simp [hasMappedValue, hget]
        obtain ⟨h1, h2, h3, h4, h5, h6, h7⟩ :=
          ih dom log a m hndRest d l a' m' hrun
        refine ⟨?_, ?_, ?_, h4, ?_, ?_, ?_⟩
        · intro t ht u hu hune
          rcases List.mem_cons.mp ht with ht | ht
          · subst ht; rw [hget] at hu
            injection hu with hu; exact absurd hu.symm hune
          · exact h1 t ht u hu hune
        · intro t ht hmv
          rcases List.mem_cons.mp ht with ht | ht
          · subst ht; exact h3 t (hneRest)
          · exact h2 t ht hmv
        · intro w hw
          exact h3 w fun t ht => hw t (List.mem_cons_of_mem s ht)
        · rw [h5, List.countP_cons]
          simp [hmap]
        · rw [h6, List.any_cons, hmap, Bool.false_or]
        · intro w e
          rw [h7 w e, List.any_cons]
          have : selFires vals dom w s = false := by
            simp [selFires, hmap]
          rw [this, Bool.false_or]
      · rw [if_neg hv] at hrun
        have hmap : hasMappedValue vals s = true := by
          simp [hasMappedValue, hget, hv]
        by_cases heq : dom.value s = v
        · rw [if_pos heq] at hrun
          obtain ⟨h1, h2, h3, h4, h5, h6, h7⟩ :=
            ih dom log true (m + 1) hndRest d l a' m' hrun
          refine ⟨?_, ?_, ?_, h4, ?_, ?_, ?_⟩
          · intro t ht u hu hune
            rcases List.mem_cons.mp ht with ht | ht
            · subst ht
              rw [hget] at hu
              injection hu with hu
              subst hu
              rw [h3 t (hneRest), heq]
            · exact h1 t ht u hu hune
          · intro t ht hmv
            rcases List.mem_cons.mp ht with ht | ht
            · subst ht; rw [hmap] at hmv; exact absurd hmv (by simp)
            · exact h2 t ht hmv
          · intro w hw
            exact h3 w fun t ht => hw t (List.mem_cons_of_mem s ht)
          · rw [h5, List.countP_cons]
            simp [hmap]
            omega
          · rw [h6, List.any_cons, hmap]
            simp
          · intro w e
            rw [h7 w e, List.any_cons]
            have : selFires vals dom w s = false := by
              simp [selFires, hget, heq]
            rw [this, Bool.false_or]
        · rw [if_neg heq] at hrun
          by_cases hver : (dom.setSelectValue s v).value s = v
          · rw [if_neg (by simp [hver])] at hrun
            set dom1 := dom.setSelectValue s v with hdom1
            have hd1other : ∀ n, n ≠ s → dom1.value n = dom.value n :=
              fun n hn => setSelectValue_value_other dom s n v hn
            obtain ⟨h1, h2, h3, h4, h5, h6, h7⟩ :=
              ih dom1 (log ++ triggerInputEvent s) true (m + 1) hndRest
                d l a' m' hrun
            refine ⟨?_, ?_, ?_, ?_, ?_, ?_, ?_⟩
            · intro t ht u hu hune
              rcases List.mem_cons.mp ht with ht | ht
              · subst ht
                rw [hget] at hu
                injection hu with hu
                subst hu
                rw [h3 t (hneRest), hver]
              · exact h1 t ht u hu hune
            · intro t ht hmv
              rcases List.mem_cons.mp ht with ht | ht
              · subst ht; rw [hmap] at hmv; exact absurd hmv (by simp)
              · rw [h2 t ht hmv]
                exact hd1other t (hneRest t ht)
            · intro w hw
              rw [h3 w fun t ht => hw t (List.mem_cons_of_mem s ht)]
              exact hd1other w fun hc => hw s (List.mem_cons_self s rest) hc.symm
            · exact ⟨h4.1, h4.2.1, h4.2.2⟩
            · rw [h5, List.countP_cons]
              simp [hmap]
              omega
            · rw [h6, List.any_cons, hmap]
              simp
            · intro w e
              rw [h7 w e, List.count_append, count_triggerInputEvent]
              have hrestFires : rest.any (selFires vals dom1 w) =
                  rest.any (selFires vals dom w) := by
                apply anyCongr
                intro t ht
                by_cases hw : t = w
                · subst hw
                  rw [selFires, selFires, hd1other t (hneRest t ht)]
                · simp [selFires, hw]
              have hHead : selFires vals dom w s = (s = w : Bool) := by
                by_cases hw : s = w
                · subst hw
                  simp [selFires, hmap, hget, heq]
                · simp [selFires, hw]
              rw [hrestFires, List.any_cons, hHead]
              by_cases hw : w = s
              · subst hw
                have hRest : rest.any (selFires vals dom w) = false := by
                  rw [List.any_eq_false]
                  intro t ht
                  simp [selFires, hneRest t ht]
                rw [hRest]
                simp
              · have hws : ¬ (s = w) := fun hc => hw hc.symm
                simp [hws, hw]
          · rw [if_pos (by simp [hver])] at hrun
            exact absurd hrun (by simp)

/-- A select write loop aborts (returns an error) whenever some listed
select carries a usable mapped value that is neither its current value nor
among its options. -/
theorem applySelectLoop_reject (vals : List (Nat × String)) :
    ∀ (selects : List Nat) (dom : Dom) (log : EventLog) (a : Bool) (m : Nat),
      selects.Nodup →
      (∃ s ∈ selects, ∃ v, assocGet vals s = some v ∧ v ≠ "" ∧
        dom.value s ≠ v ∧ (dom.optionValues s).contains v = false) →
      (applySelectLoop vals dom log a m selects).1.isSome := by
  intro selects
  induction selects with
  | nil =>
    intro dom log a m _ hex
    obtain ⟨s, hs, _⟩ := hex
    exact absurd hs (List.not_mem_nil s)
  | cons s rest ih =>
    intro dom log a m hnd hex
    rw [List.nodup_cons] at hnd
    have hneRest : ∀ t ∈ rest, t ≠ s := fun t ht hc => hnd.1 (hc ▸ ht)
    obtain ⟨t, ht, v, hget, hv, hdiff, hopt⟩ := hex
    rw [applySelectLoop]
    rcases List.mem_cons.mp ht with hts | htr
    · subst hts
      simp only [hget]
      rw [if_neg hv, if_neg hdiff]
      have hclob : (dom.setSelectValue t v).value t = "" := by
        rw [setSelectValue_value_self, hopt]
        rfl
      rw [if_pos (show (dom.setSelectValue t v).value t ≠ v by
        rw [hclob]; exact fun hc => hv hc.symm)]
      rfl
    · cases hgets : assocGet vals s with
      | none =>
        simp only [hgets]
        exact ih dom log a m hnd.2 ⟨t, htr, v, hget, hv, hdiff, hopt⟩
      | some u =>
        simp only [hgets]
        by_cases hu : u = ""
        · subst hu
          rw [if_pos rfl]
          exact ih dom log a m hnd.2 ⟨t, htr, v, hget, hv, hdiff, hopt⟩
        · rw [if_neg hu]
          by_cases heq : dom.value s = u
          · rw [if_pos heq]
            exact ih dom log true (m + 1) hnd.2 ⟨t, htr, v, hget, hv, hdiff, hopt⟩
          · rw [if_neg heq]
            by_cases hver : (dom.setSelectValue s u).value s = u
            · rw [if_neg (by simp [hver])]
              refine ih _ _ _ _ hnd.2 ⟨t, htr, v, ?_, hv, ?_, ?_⟩
              · exact hget
              · rw [setSelectValue_value_other dom s t u (hneRest t htr)]
                exact hdiff
              · have : (dom.setSelectValue s u).optionValues t =
                    dom.optionValues t := rfl
                rw [this]
                exact hopt
            · rw [if_pos (by simp [hver])]
              rfl

/-- The fold of `getUniqueSelectElements` preserves distinctness. -/
theorem getUniqueSelectElements_fold_nodup (dom : Dom) :
    ∀ (cs : List ParsedChoice) (acc : List Nat), acc.Nodup →
      (cs.foldl
        (fun unique c =>
          if dom.elemType c.elementId = ElemType.selectEl &&
              !(unique.contains c.elementId) then
            unique ++ [c.elementId]
          else unique)
        acc).Nodup := by
  intro cs
  induction cs with
  | nil => intro acc hacc; exact hacc
  | cons c rest ih =>
    intro acc hacc
    rw [List.foldl_cons]
    by_cases hcond : (dom.elemType c.elementId = ElemType.selectEl &&
        !(acc.contains c.elementId)) = true
    · rw [if_pos hcond]
      apply ih
      have hmem : c.elementId ∉ acc := by
        have h2 := hcond
        simp only [Bool.and_eq_true] at h2
        simpa using h2.2
      simp [List.nodup_append, hacc, hmem]
    · rw [if_neg hcond]
      exact ih acc hacc

/-- `getUniqueSelectElements` returns pairwise distinct widgets. -/
theorem getUniqueSelectElements_nodup (dom : Dom)
    (choices : List ParsedChoice) :
    (getUniqueSelectElements dom choices).Nodup :=
  getUniqueSelectElements_fold_nodup dom choices [] List.nodup_nil

/-- A successful `applySelectValues` pass gave every listed select a usable
mapped value, now readable back from the widget. -/
theorem applySelectValues_ok_values (dom : Dom) (selects : List Nat)
    (vals : List (Nat × String)) (hnd : selects.Nodup)
    (hok : (applySelectValues dom selects vals).result = ApplyResult.ok) :
    ∀ s ∈ selects, ∃ v, assocGet vals s = some v ∧ v ≠ "" ∧
      (applySelectValues dom selects vals).dom.value s = v := by
  intro s hs
  rcases hout : applySelectLoop vals dom [] false 0 selects with
    ⟨opt, d, l, a', m'⟩
  cases opt with
  | some msg =>
    simp only [applySelectValues, hout] at hok
    exact absurd hok (by simp)
  | none =>
    obtain ⟨h1, h2, h3, _, h5, h6, h7⟩ :=
      applySelectLoop_complete vals selects dom [] false 0 hnd d l a' m' hout
    simp only [applySelectValues, hout] at hok ⊢
    by_cases hz : (!a' && decide (m' = 0)) = true
    · rw [if_pos hz] at hok
      exact absurd hok (by simp)
    · rw [if_neg hz] at hok ⊢
      by_cases hlt : m' < selects.length
      · rw [if_pos hlt] at hok
        exact absurd hok (by simp)
      · rw [if_neg hlt] at hok ⊢
        have hcount : selects.countP (hasMappedValue vals) = selects.length := by
          have hle : selects.countP (hasMappedValue vals) ≤ selects.length :=
            List.countP_le_length _
          omega
        have hall := (List.countP_eq_length.mp hcount) s hs
        cases hget : assocGet vals s with
        | none => rw [hasMappedValue, hget] at hall; exact absurd hall (by simp)
        | some v =>
          have hvne : v ≠ "" := by
            rw [hasMappedValue, hget] at hall
            simpa using hall
          exact ⟨v, rfl, hvne, h1 s hs v hget hvne⟩

/-- C2: a `select` application succeeds only with full coverage — a
successful pass gave every distinct select a usable mapped value (and at the
`applyAnswer` level every distinct dropdown of a successful `select`
application holds a nonempty value) — a mapped value that fails read-back
verification makes the pass fail, and when verification fails on the first
select the loop stops: the error is reported, no events have fired, the
rejected select reads back empty (not the requested value), and every other
select keeps its previous value. -/
theorem applySelectValues_coverage (dom : Dom) (selects : List Nat)
    (vals : List (Nat × String)) (hnd : selects.Nodup) :
    ((applySelectValues dom selects vals).result = ApplyResult.ok →
      ∀ s ∈ selects, ∃ v, assocGet vals s = some v ∧ v ≠ "" ∧
        (applySelectValues dom selects vals).dom.value s = v) ∧
    ((∃ s ∈ selects, ∃ v, assocGet vals s = some v ∧ v ≠ "" ∧
        dom.value s ≠ v ∧ (dom.optionValues s).contains v = false) →
      (applySelectValues dom selects vals).result ≠ ApplyResult.ok) ∧
    (∀ s1 rest v, selects = s1 :: rest →
      assocGet vals s1 = some v → v ≠ "" → dom.value s1 ≠ v →
      (dom.optionValues s1).contains v = false →
      (applySelectValues dom selects vals).result =
        ApplyResult.err (rejectedMsg v) ∧
      (applySelectValues dom selects vals).log = [] ∧
      (applySelectValues dom selects vals).dom.value s1 = "" ∧
      (∀ t, t ≠ s1 →
        (applySelectValues dom selects vals).dom.value t = dom.value t)) ∧
    (∀ (q : ParsedQuestion) (ids : List String) (atext : Option AnswerText),
      q.qtype = QType.select →
      (applyAnswer dom q ids atext).result = ApplyResult.ok →
      ∀ s ∈ getUniqueSelectElements dom
          (q.choices.filter isUsableSelectChoice),
        ∃ v, v ≠ "" ∧ (applyAnswer dom q ids atext).dom.value s = v) := by
  refine ⟨applySelectValues_ok_values dom selects vals hnd, ?_, ?_, ?_⟩
  · intro hex hok
    have hsome := applySelectLoop_reject vals selects dom [] false 0 hnd hex
    rcases hout : applySelectLoop vals dom [] false 0 selects with
      ⟨opt, d, l, a', m'⟩
    cases opt with
    | some msg =>
      simp only [applySelectValues, hout] at hok
      exact absurd hok (by simp)
    | none =>
      rw [hout] at hsome
      exact absurd hsome (by simp)
  · intro s1 rest v hsel hget hv hdiff hopt
    subst hsel
    have hclob : (dom.setSelectValue s1 v).value s1 = "" := by
      rw [setSelectValue_value_self, hopt]
      rfl
    have hrun : applySelectLoop vals dom [] false 0 (s1 :: rest) =
        (some (rejectedMsg v), dom.setSelectValue s1 v, [], false, 1) := by
      rw [applySelectLoop]
      simp only [hget]
      rw [if_neg hv, if_neg hdiff,
        if_pos (show (dom.setSelectValue s1 v).value s1 ≠ v by
          rw [hclob]; exact fun hc => hv hc.symm)]
    have happly : applySelectValues dom (s1 :: rest) vals =
        ⟨ApplyResult.err (rejectedMsg v), dom.setSelectValue s1 v, []⟩ := by
      simp only [applySelectValues, hrun]
    rw [happly]
    refine ⟨rfl, rfl, hclob, ?_⟩
    intro t ht
    exact setSelectValue_value_other dom s1 t v ht
  · intro q ids atext hq hok s hs
    by_cases hempty : (q.choices.filter isUsableSelectChoice).isEmpty = true
    · rw [show applyAnswer dom q ids atext =
          ⟨.err "Unable to locate dropdown options for this question.",
            dom, []⟩ by
        simp [applyAnswer, hq, hempty]] at hok
      exact absurd hok (by simp)
    · by_cases huniq : (getUniqueSelectElements dom
          (q.choices.filter isUsableSelectChoice)).isEmpty = true
      · rw [show applyAnswer dom q ids atext =
            ⟨.err "Unable to locate dropdown inputs for this question.",
              dom, []⟩ by
          simp [applyAnswer, hq, hempty, huniq]] at hok
        exact absurd hok (by simp)
      · have hndU := getUniqueSelectElements_nodup dom
          (q.choices.filter isUsableSelectChoice)
        cases hres : (applySelectValues dom
            (getUniqueSelectElements dom
              (q.choices.filter isUsableSelectChoice))
            (chosenBySelectLoop dom []
              (ids.filterMap fun answerId =>
                selectChoiceById (q.choices.filter isUsableSelectChoice)
                  answerId))).result with
        | ok =>
          have happly : applyAnswer dom q ids atext =
              applySelectValues dom
                (getUniqueSelectElements dom
                  (q.choices.filter isUsableSelectChoice))
                (chosenBySelectLoop dom []
                  (ids.filterMap fun answerId =>
                    selectChoiceById (q.choices.filter isUsableSelectChoice)
                      answerId)) := by
            simp only [applyAnswer, hq]
            rw [if_neg (by simp [hempty]), if_neg (by simp [huniq])]
            rw [show (applySelectValues dom
                (getUniqueSelectElements dom
                  (q.choices.filter isUsableSelectChoice))
                (chosenBySelectLoop dom []
                  (ids.filterMap fun answerId =>
                    selectChoiceById (q.choices.filter isUsableSelectChoice)
                      answerId))).result = ApplyResult.ok from hres]
          rw [happly] at hok ⊢
          obtain ⟨v, _, hvne, hval⟩ :=
            applySelectValues_ok_values dom _ _ hndU hok s hs
          exact ⟨v, hvne, hval⟩
        | err msg =>
          by_cases hparts : (normalizeAnswerParts atext).isEmpty = true
          · have happly : applyAnswer dom q ids atext =
                applySelectValues dom
                  (getUniqueSelectElements dom
                    (q.choices.filter isUsableSelectChoice))
                  (chosenBySelectLoop dom []
                    (ids.filterMap fun answerId =>
                      selectChoiceById
                        (q.choices.filter isUsableSelectChoice)
                        answerId)) := by
              simp only [applyAnswer, hq]
              rw [if_neg (by simp [hempty]), if_neg (by simp [huniq])]
              rw [show (applySelectValues dom
                  (getUniqueSelectElements dom
                    (q.choices.filter isUsableSelectChoice))
                  (chosenBySelectLoop dom []
                    (ids.filterMap fun answerId =>
                      selectChoiceById
                        (q.choices.filter isUsableSelectChoice)
                        answerId))).result = ApplyResult.err msg from hres]
              rw [if_pos hparts]
            rw [happly] at hok
            rw [hres] at hok
            exact absurd hok (by simp)
          · set fromIds := applySelectValues dom
              (getUniqueSelectElements dom
                (q.choices.filter isUsableSelectChoice))
              (chosenBySelectLoop dom []
                (ids.filterMap fun answerId =>
                  selectChoiceById (q.choices.filter isUsableSelectChoice)
                    answerId)) with hfromIds
            set fromText := applySelectValues fromIds.dom
              (getUniqueSelectElements dom
                (q.choices.filter isUsableSelectChoice))
              (textMappingLoop fromIds.dom (normalizeAnswerParts atext) []
                (getSelectsInDomOrder q
                  (getUniqueSelectElements dom
                    (q.choices.filter isUsableSelectChoice))).enum)
              with hfromText
            have happly : applyAnswer dom q ids atext =
                ⟨fromText.result, fromText.dom,
                  fromIds.log ++ fromText.log⟩ := by
              simp only [applyAnswer, hq]
              rw [if_neg (by simp [hempty]), if_neg (by simp [huniq])]
              rw [show fromIds.result = ApplyResult.err msg from hres]
              rw [if_neg (by simp [hparts])]
            rw [happly] at hok ⊢
            obtain ⟨v, _, hvne, hval⟩ :=
              applySelectValues_ok_values fromIds.dom _ _ hndU hok s hs
            exact ⟨v, hvne, hval⟩

/-- A page state with two dropdowns (widgets 30, 31), each offering options
`x` and `y`, both currently empty. -/
def twoSelectDom : Dom :=
  { elemType := fun _ => ElemType.selectEl, checked := fun _ => false,
    value := fun _ => "",
    options := fun _ =>
      [{ value := "x", textContent := "Ex" },
       { value := "y", textContent := "Why" }] }

/-- Witness for C2: with two dropdowns and a mapping covering only the
first, the pass fails (partial coverage). -/
theorem applySelectValues_coverage_witness :
    (applySelectValues twoSelectDom [30, 31] [(30, "x")]).result ≠
      ApplyResult.ok := by
  intro hok
  obtain ⟨v, hget, _, _⟩ :=
    (applySelectValues_coverage twoSelectDom [30, 31] [(30, "x")]
      (by decide)).1 hok 31 (by decide)
  simp [assocGet] at hget

/-! ## C5: synthetic event discipline -/

/-- An unchanged snapshot is unchanged at every widget. -/
theorem changedAt_self (dom : Dom) (w : Nat) :
    changedAt dom dom w = false := by
  simp [changedAt]

/-- A free-response question whose single text field (widget 40) already
holds the string `42`. -/
def textQ : ParsedQuestion :=
  { id := "q3", element := emptyQElement, qtype := QType.text,
    text := "Answer", html := "", number := none,
    choices :=
      [{ id := "t1", label := "Free response", elementId := 40,
         kind := ChoiceKind.text, value := some "42" }] }

/-- A page state where every widget is a text input holding `42`. -/
def textDom : Dom :=
  { elemType := fun _ => ElemType.inputEl, checked := fun _ => false,
    value := fun _ => "42", options := fun _ => [] }

/-- Counterexample to C5 as stated: applying the answer `42` to a text
question whose field already contains `42` changes no widget state, yet the
field still receives one synthetic `input` and one `change` event — the
`text` branch writes and fires unconditionally. -/
theorem applyAnswer_text_event_counterexample :
    (∀ w, changedAt textDom
      (applyAnswer textDom textQ [] (some (.str "42"))).dom w = false) ∧
    (applyAnswer textDom textQ [] (some (.str "42"))).log =
      [(40, EvName.input), (40, EvName.change)] := by
  constructor
  · intro w
    show changedAt textDom (textDom.setValue 40 "42") w = false
    by_cases h : w = 40 <;>
      simp [changedAt, textDom, Dom.setValue, h]
  · rfl

/-- C5 (amended): for `single` and `multi` questions every widget whose
state changes receives exactly one synthetic `input` and one `change` event
(fired after the write) and unchanged widgets receive none; for `text`
questions the first choice's field receives exactly one of each whenever a
nonempty value is applied, even when the written value equals the existing
one, and none when the application fails; for `select` questions, within a
write pass that is not aborted by read-back verification, every select whose
value changes receives exactly one of each and unchanged selects none (the
full `select` application may run up to two such passes: ids, then text). -/
theorem applyAnswer_event_discipline :
    (∀ (dom : Dom) (q : ParsedQuestion) (ids : List String)
        (atext : Option AnswerText), q.qtype = QType.single →
      ∀ w e, (applyAnswer dom q ids atext).log.count (w, e) =
        if changedAt dom (applyAnswer dom q ids atext).dom w then 1 else 0) ∧
    (∀ (dom : Dom) (q : ParsedQuestion) (ids : List String)
        (atext : Option AnswerText), q.qtype = QType.multi →
      (q.choices.map fun c => c.elementId).Nodup →
      ∀ w e, (applyAnswer dom q ids atext).log.count (w, e) =
        if changedAt dom (applyAnswer dom q ids atext).dom w then 1 else 0) ∧
    (∀ (dom : Dom) (q : ParsedQuestion) (ids : List String)
        (atext : Option AnswerText), q.qtype = QType.text →
      (∀ c, q.choices.head? = some c → textAnswerValue atext ≠ "" →
        applyAnswer dom q ids atext =
          ⟨.ok, dom.setValue c.elementId (textAnswerValue atext),
            triggerInputEvent c.elementId⟩) ∧
      (textAnswerValue atext = "" →
        (applyAnswer dom q ids atext).log = []) ∧
      (q.choices.head? = none → (applyAnswer dom q ids atext).log = [])) ∧
    (∀ (dom : Dom) (selects : List Nat) (vals : List (Nat × String)),
      selects.Nodup →
      (applySelectLoop vals dom [] false 0 selects).1 = none →
      ∀ w e, (applySelectValues dom selects vals).log.count (w, e) =
        if changedAt dom (applySelectValues dom selects vals).dom w
        then 1 else 0) := by
  refine ⟨?_, ?_, ?_, ?_⟩
  · -- single
    intro dom q ids atext hq w e
    cases hres : resolveSingleChoice q ids atext with
    | none =>
      rw [show applyAnswer dom q ids atext =
        ⟨.err "No matching answer choice returned by GPT.", dom, []⟩ by
        simp [applyAnswer, hq, hres]]
      simp [changedAt_self]
    | some p =>
      by_cases hchk : dom.checked p.2.elementId = true
      · rw [show applyAnswer dom q ids atext = ⟨.ok, dom, []⟩ by
          simp [applyAnswer, hq, hres, hchk]]
        simp [changedAt_self]
      · rw [show applyAnswer dom q ids atext =
          ⟨.ok, dom.setChecked p.2.elementId true,
            triggerInputEvent p.2.elementId⟩ by
          simp [applyAnswer, hq, hres, hchk]]
        rw [count_triggerInputEvent]
        by_cases hw : w = p.2.elementId
        · have hfalse : dom.checked p.2.elementId = false := by
            revert hchk; cases dom.checked p.2.elementId <;> simp
          subst hw
          simp [changedAt, setChecked_checked_self, hfalse]
        · simp [changedAt, Dom.setChecked,
            setChecked_checked_other dom p.2.elementId w true hw, hw]
  · -- multi
    intro dom q ids atext hq hnd w e
    have hndEnum : (q.choices.enum.map fun p => p.2.elementId).Nodup := by
      have hmm : (q.choices.enum.map fun p => p.2.elementId) =
          q.choices.map fun c => c.elementId := by
        rw [show (fun (p : Nat × ParsedChoice) => p.2.elementId) =
          (fun c : ParsedChoice => c.elementId) ∘ Prod.snd from rfl,
          ← List.map_map, List.enum_map_snd]
      rw [hmm]; exact hnd
    cases hres : resolveMultiChoices q ids atext with
    | nil =>
      rw [show applyAnswer dom q ids atext =
        ⟨.err "GPT selections did not match any available choices.",
          dom, []⟩ by simp [applyAnswer, hq, hres]]
      simp [changedAt_self]
    | cons r rest =>
      have hstep : applyAnswer dom q ids atext =
          ⟨.ok,
            (applyMultiLoop (r :: rest) dom [] q.choices.enum).1,
            (applyMultiLoop (r :: rest) dom [] q.choices.enum).2⟩ := by
        simp [applyAnswer, hq, hres]
      rw [hstep]
      obtain ⟨⟨_, hval, _⟩, huntouched, hinput, hother, hcount⟩ :=
        applyMultiLoop_spec (r :: rest) q.choices.enum dom [] hndEnum
      rw [hcount w e]
      have hvalw : (applyMultiLoop (r :: rest) dom [] q.choices.enum).1.value
          w = dom.value w := by rw [hval]
      cases hany : q.choices.enum.any (multiFires (r :: rest) dom w) with
      | true =>
        obtain ⟨p, hp, hfire⟩ := List.any_eq_true.mp hany
        rw [multiFires, Bool.and_eq_true, Bool.and_eq_true] at hfire
        obtain ⟨⟨hpw, helem⟩, hne⟩ := hfire
        have hpw2 : p.2.elementId = w := by simpa using hpw
        have helem2 : dom.elemType w = ElemType.inputEl := by simpa using helem
        have hne2 : dom.checked w ≠ ((r :: rest).any fun x => x.1 = p.1) := by
          simpa using hne
        have hcheck := hinput p hp (hpw2 ▸ helem2)
        rw [hpw2] at hcheck
        have hch : changedAt dom
            (applyMultiLoop (r :: rest) dom [] q.choices.enum).1 w = true := by
          rw [changedAt, hcheck, hvalw]
          simp
          exact hne2
        rw [hch]
        simp
      | false =>
        have hnofire := List.any_eq_false.mp hany
        have hch : changedAt dom
            (applyMultiLoop (r :: rest) dom [] q.choices.enum).1 w =
            false := by
          rw [changedAt, hvalw]
          by_cases hex : ∃ p ∈ q.choices.enum, p.2.elementId = w
          · obtain ⟨p, hp, hpw⟩ := hex
            by_cases helem : dom.elemType p.2.elementId = ElemType.inputEl
            · have hcheck := hinput p hp helem
              have hfire := hnofire p hp
              rw [multiFires] at hfire
              have heq : dom.checked w = ((r :: rest).any fun x => x.1 = p.1)
                  := by
                by_contra hcontra
                rw [hpw] at hfire
                simp [hpw ▸ helem, hcontra] at hfire
                exact absurd hfire (by simpa using hcontra)
              rw [hpw] at hcheck
              rw [hcheck, ← heq]
              simp
            · have := hother p hp helem
              rw [hpw] at this
              rw [this]
              simp
          · push_neg at hex
            rw [huntouched w hex]
            simp
        rw [hch]
        simp
  · -- text
    intro dom q ids atext hq
    refine ⟨?_, ?_, ?_⟩
    · intro c hc hval
      simp [applyAnswer, hq, hval, hc]
    · intro hval
      simp [applyAnswer, hq, hval]
    · intro hc
      by_cases hval : textAnswerValue atext = ""
      · simp [applyAnswer, hq, hval]
      · simp [applyAnswer, hq, hval, hc]
  · -- select (one non-aborted pass)
    intro dom selects vals hnd hnone w e
    rcases hout : applySelectLoop vals dom [] false 0 selects with
      ⟨opt, d, l, a', m'⟩
    rw [hout] at hnone
    simp only at hnone
    subst hnone
    obtain ⟨h1, h2, h3, ⟨helemF, hchkF, _⟩, h5, h6, h7⟩ :=
      applySelectLoop_complete vals selects dom [] false 0 hnd d l a' m' hout
    have hdl : (applySelectValues dom selects vals).dom = d ∧
        (applySelectValues dom selects vals).log = l := by
      simp only [applySelectValues, hout]
      split
      · exact ⟨rfl, rfl⟩
      · split
        · exact ⟨rfl, rfl⟩
        · exact ⟨rfl, rfl⟩
    rw [hdl.1, hdl.2, h7 w e]
    have hchkw : dom.checked w = d.checked w := by rw [hchkF]
    cases hany : selects.any (selFires vals dom w) with
    | true =>
      obtain ⟨s, hs, hfire⟩ := List.any_eq_true.mp hany
      rw [selFires, Bool.and_eq_true, Bool.and_eq_true] at hfire
      obtain ⟨⟨hsw, hmap⟩, hdiff⟩ := hfire
      have hsw2 : s = w := by simpa using hsw
      cases hget : assocGet vals s with
      | none => rw [hasMappedValue, hget] at hmap; exact absurd hmap (by simp)
      | some v =>
        have hvne : v ≠ "" := by
          rw [hasMappedValue, hget] at hmap
          simpa using hmap
        have hdval := h1 s hs v hget hvne
        have hdiff2 : dom.value s ≠ v := by
          rw [hget] at hdiff
          simpa using hdiff
        have hch : changedAt dom d w = true := by
          rw [changedAt]
          subst hsw2
          rw [hdval]
          simp [hdiff2]
        rw [hch]
        simp
    | false =>
      have hnofire := List.any_eq_false.mp hany
      have hch : changedAt dom d w = false := by
        rw [changedAt, ← hchkw]
        by_cases hmem : w ∈ selects
        · cases hmap : hasMappedValue vals w with
          | false =>
            rw [h2 w hmem hmap]
            simp
          | true =>
            cases hget : assocGet vals w with
            | none =>
              rw [hasMappedValue, hget] at hmap
              exact absurd hmap (by simp)
            | some v =>
              have hvne : v ≠ "" := by
                rw [hasMappedValue, hget] at hmap
                simpa using hmap
              have hfire := hnofire w hmem
              rw [selFires, hget] at hfire
              have heqv : dom.value w = v := by
                by_contra hcontra
                simp [hasMappedValue, hget, hvne, hcontra] at hfire
              rw [h1 w hmem v hget hvne, heqv]
              simp
        · rw [h3 w fun s hs hc => hmem (hc ▸ hs)]
          simp
      rw [hch]
      simp

/-- Witness for C5 (amended): applying a fresh value to the text question
writes it and fires exactly the two events on the field. -/
theorem applyAnswer_event_discipline_witness :
    applyAnswer textDom textQ [] (some (.str "7")) =
      ⟨.ok, textDom.setValue 40 "7", triggerInputEvent 40⟩ :=
  ((applyAnswer_event_discipline.2.2.1 textDom textQ [] (some (.str "7"))
    rfl).1)
    { id := "t1", label := "Free response", elementId := 40,
      kind := ChoiceKind.text, value := some "42" }
    rfl (by decide)
